import Mathlib

/-!
Verification of the go-dicom DICOM codec against its specification.

The development shallowly embeds the codec of the repository: the byte
I/O layer (buffer.go, with the method names used by the element
reader/writer snapshots), the element reader (dicom.go, ReadElement and
its helpers readTag / readImplicit / readExplicit / readRawItem /
readBasicOffsetTable), the element writer (WriteElement and
encodeElementHeader), the VR kind classifier and tag lookup (tag.go),
the transfer-syntax resolver (transfersyntax.go) and the character-set
decoder (parseSpecificCharacterSet).

Go byte strings are modelled as lists of naturals below 256; machine
integers are naturals (or integers for signed reads) reduced modulo a
power of two where the code truncates.  Go float32/float64 values are
modelled by their IEEE bit patterns, which is exact for the byte-level
reads and writes performed by this codec.  The reader in the source
terminates because every loop iteration consumes input; the embedding
makes this explicit with a fuel parameter.
-/

namespace Dicom

/-- GoStr models a Go string: an immutable byte sequence (each entry is a
byte value below 256). -/
abbrev GoStr := List Nat

/-- Byte sequence of an ASCII string literal, used to write Go string
literals appearing in the source. -/
def gs (s : String) : GoStr := s.data.map Char.toNat

/-- Byte orders supported by encoding/binary as used by the codec. -/
inductive ByteOrder : Type where
  | littleEndian : ByteOrder
  | bigEndian : ByteOrder
deriving DecidableEq

/-- IsImplicitVR mirrors the three-valued transfer-syntax flag of
buffer.go (ImplicitVR / ExplicitVR / UnknownVR). -/
inductive IsImplicitVR : Type where
  | ImplicitVR : IsImplicitVR
  | ExplicitVR : IsImplicitVR
  | UnknownVR : IsImplicitVR
deriving DecidableEq

/-- Encoding of a uint16 in a given byte order, as by binary.Write. -/
def encode16 (bo : ByteOrder) (v : Nat) : List Nat :=
  match bo with
  | .littleEndian => [v % 256, v / 256 % 256]
  | .bigEndian => [v / 256 % 256, v % 256]

/-- Encoding of a uint32 in a given byte order, as by binary.Write. -/
def encode32 (bo : ByteOrder) (v : Nat) : List Nat :=
  match bo with
  | .littleEndian => [v % 256, v / 256 % 256, v / 2 ^ 16 % 256, v / 2 ^ 24 % 256]
  | .bigEndian => [v / 2 ^ 24 % 256, v / 2 ^ 16 % 256, v / 256 % 256, v % 256]

/-- Encoding of a uint64 in a given byte order, as by binary.Write. -/
def encode64 (bo : ByteOrder) (v : Nat) : List Nat :=
  encode32 bo (if bo = .littleEndian then v % 2 ^ 32 else v / 2 ^ 32) ++
    encode32 bo (if bo = .littleEndian then v / 2 ^ 32 else v % 2 ^ 32)

/-- Decoding of two bytes into a uint16, as by binary.Read; a list that
does not hold exactly two bytes decodes to the zero value. -/
def decode16 (bo : ByteOrder) (l : List Nat) : Nat :=
  match bo, l with
  | .littleEndian, [a, b] => a + 256 * b
  | .bigEndian, [a, b] => b + 256 * a
  | _, _ => 0

/-- Decoding of four bytes into a uint32, as by binary.Read. -/
def decode32 (bo : ByteOrder) (l : List Nat) : Nat :=
  match bo, l with
  | .littleEndian, [a, b, c, d] => a + 256 * b + 2 ^ 16 * c + 2 ^ 24 * d
  | .bigEndian, [a, b, c, d] => d + 256 * c + 2 ^ 16 * b + 2 ^ 24 * a
  | _, _ => 0

/-- Decoding of eight bytes into a uint64, as by binary.Read. -/
def decode64 (bo : ByteOrder) (l : List Nat) : Nat :=
  match bo with
  | .littleEndian => decode32 bo (l.take 4) + 2 ^ 32 * decode32 bo (l.drop 4)
  | .bigEndian => 2 ^ 32 * decode32 bo (l.take 4) + decode32 bo (l.drop 4)

/-- Reinterpretation of a uint16 as a two's-complement int16. -/
def toSigned16 (v : Nat) : Int :=
  if v < 2 ^ 15 then (v : Int) else (v : Int) - 2 ^ 16

/-- Reinterpretation of a uint32 as a two's-complement int32. -/
def toSigned32 (v : Nat) : Int :=
  if v < 2 ^ 31 then (v : Int) else (v : Int) - 2 ^ 32

/-- Two's-complement uint16 image of an int16, used when writing. -/
def intToU16 (i : Int) : Nat := (i % 2 ^ 16).toNat

/-- Two's-complement uint32 image of an int32, used when writing. -/
def intToU32 (i : Int) : Nat := (i % 2 ^ 32).toNat

/-- Tag is the group / element pair of tag.go. -/
structure Tag : Type where
  group : Nat
  element : Nat
deriving DecidableEq

/-- Group 0xFFFE carrying the item and delimiter pseudo-tags
(itemSeqGroup in dicom.go). -/
def itemSeqGroup : Nat := 0xFFFE

/-- Modelled from the spec: the generated tag-constant file is absent
from the sources; the Item pseudo-tag value (FFFE,E000) is given by the
data model section and the glossary of the spec, and is asserted by
dicom.go (doassert on group 0xfffe, element 0xe000). -/
def TagItem : Tag := ⟨0xFFFE, 0xE000⟩

/-- Modelled from the spec: ItemDelimitation pseudo-tag (FFFE,E00D). -/
def TagItemDelimitationItem : Tag := ⟨0xFFFE, 0xE00D⟩

/-- Modelled from the spec: SequenceDelimitation pseudo-tag (FFFE,E0DD). -/
def TagSequenceDelimitationItem : Tag := ⟨0xFFFE, 0xE0DD⟩

/-- Modelled from the spec: PixelData tag (7FE0,0010); the value is
asserted by tag_test.go, which looks up Tag{32736, 16} and expects name
PixelData with VR OW. -/
def TagPixelData : Tag := ⟨0x7FE0, 0x0010⟩

/-- VRKind is the value-shape classifier of tag.go (the snapshot with
the date kind, which the element writer relies on). -/
inductive VRKind : Type where
  | VRStringList : VRKind
  | VRBytes : VRKind
  | VRString : VRKind
  | VRUInt16List : VRKind
  | VRUInt32List : VRKind
  | VRInt16List : VRKind
  | VRInt32List : VRKind
  | VRFloat32List : VRKind
  | VRFloat64List : VRKind
  | VRSequence : VRKind
  | VRItem : VRKind
  | VRTagList : VRKind
  | VRDate : VRKind
  | VRPixelData : VRKind
deriving DecidableEq

/-- GetVRKind returns the golang value encoding of an element with the
given tag and VR (tag.go). -/
def GetVRKind (tag : Tag) (vr : GoStr) : VRKind :=
  if tag = TagItem then .VRItem
  else if tag = TagPixelData then .VRPixelData
  else if vr = gs "DA" then .VRDate
  else if vr = gs "AT" then .VRTagList
  else if vr = gs "OW" ∨ vr = gs "OB" then .VRBytes
  else if vr = gs "LT" ∨ vr = gs "UT" then .VRString
  else if vr = gs "UL" then .VRUInt32List
  else if vr = gs "SL" then .VRInt32List
  else if vr = gs "US" then .VRUInt16List
  else if vr = gs "SS" then .VRInt16List
  else if vr = gs "FL" then .VRFloat32List
  else if vr = gs "FD" then .VRFloat64List
  else if vr = gs "SQ" then .VRSequence
  else .VRStringList

/-- TagInfo is the dictionary row of tag.go: tag, VR, human name and
value multiplicity. -/
structure TagInfo : Type where
  tag : Tag
  VR : GoStr
  name : String
  VM : String
deriving DecidableEq

/-- Modelled from the spec: the generated tag-table data file is absent
from the sources, so the dictionary is restricted to the entries
attested by the spec and by the tests of the repository:
FileMetaInformationGroupLength (0002,0000) UL and TransferSyntaxUID
(0002,0010) UI from the file-format section and tag_test.go, PixelData
(7FE0,0010) OW and EventTypeID (0000,1002) US from tag_test.go, and
PatientName (0010,0010) PN from the data-model section and
dicom_test.go.  Tags outside this table (in particular private tags)
are dictionary misses, as they are for the real generated table. -/
def tagDict : List (Tag × TagInfo) :=
  [ (⟨2, 0⟩, ⟨⟨2, 0⟩, gs "UL", "FileMetaInformationGroupLength", "1"⟩),
    (⟨2, 0x10⟩, ⟨⟨2, 0x10⟩, gs "UI", "TransferSyntaxUID", "1"⟩),
    (⟨0x7FE0, 0x10⟩, ⟨⟨0x7FE0, 0x10⟩, gs "OW", "PixelData", "1"⟩),
    (⟨0, 0x1002⟩, ⟨⟨0, 0x1002⟩, gs "US", "EventTypeID", "1"⟩),
    (⟨0x10, 0x10⟩, ⟨⟨0x10, 0x10⟩, gs "PN", "PatientName", "1"⟩) ]

/-- FindTag finds information about the given tag (tag.go); a miss on an
even group with element 0000 synthesizes the GenericGroupLength entry.
The element reader snapshot names this function LookupTag; both eras
share the body found in tag.go. -/
def FindTag (tag : Tag) : Except String TagInfo :=
  match (tagDict.find? (fun p => p.1 = tag)) with
  | some p => .ok p.2
  | none =>
    if tag.group % 2 = 0 ∧ tag.element = 0 then
      .ok ⟨tag, gs "UL", "GenericGroupLength", "1"⟩
    else
      .error "Could not find tag in dictionary"

/-- Decoder is the bounded streaming reader of buffer.go: a byte source,
the cumulative position, the active byte-length limit with its stack, a
sticky first error, and the active transfer-syntax frame.  The reader
snapshots use the dicomio method names (ReadBytes, ReadString,
ReadUInt16, ...), whose bodies are the Decode* methods of buffer.go.
The coding system is left at its default (nil decoders), under which
string reads return the raw bytes. -/
structure Decoder : Type where
  buf : List Nat
  pos : Nat
  limit : Nat
  err : Option String
  bo : ByteOrder
  implicit : IsImplicitVR
  oldLimits : List Nat
deriving DecidableEq

/-- NewBytesDecoder creates a decoder over an in-memory byte sequence
(buffer.go). -/
def NewBytesDecoder (data : List Nat) (bo : ByteOrder) (implicit : IsImplicitVR) : Decoder :=
  ⟨data, 0, data.length, none, bo, implicit, []⟩

namespace Decoder

/-- Len returns the number of not-yet-consumed bytes within the current
limit (buffer.go). -/
def Len (d : Decoder) : Nat := d.limit - d.pos

/-- SetError records the error to be reported by future Error or Finish
calls; the first recorded error is kept (buffer.go). -/
def SetError (d : Decoder) (msg : String) : Decoder :=
  match d.err with
  | none => { d with err := some msg }
  | some _ => d

/-- Error returns the first error recorded so far (buffer.go). -/
def Error (d : Decoder) : Option String := d.err

/-- Finish returns the recorded error if any, or an error when bytes
remain unconsumed (buffer.go). -/
def Finish (d : Decoder) : Option String :=
  match d.err with
  | some e => some e
  | none => if d.Len ≠ 0 then some "Decoder found junk" else none

/-- ReadBytes reads an exact number of bytes.  When fewer bytes remain
within the limit the error is recorded and no bytes are returned; when
the underlying source is exhausted first, the EOF error is recorded and
the zero-filled buffer of the requested length is returned, as by the
partially-filled buffer of buffer.go. -/
def ReadBytes (d : Decoder) (n : Nat) : List Nat × Decoder :=
  if d.Len < n then
    ([], d.SetError "ReadBytes: requested more bytes than available")
  else if d.pos + n ≤ d.buf.length then
    ((d.buf.drop d.pos).take n, { d with pos := d.pos + n })
  else
    (List.replicate n 0, ({ d with pos := d.buf.length }).SetError "unexpected EOF")

/-- ReadString reads an exact number of bytes as a Go string; with the
default coding system the bytes are returned unchanged
(internalDecodeString of buffer.go). -/
def ReadString (d : Decoder) (n : Nat) : GoStr × Decoder := d.ReadBytes n

/-- ReadUInt16 reads two bytes in the current byte order; on failure the
zero value is returned and the error recorded. -/
def ReadUInt16 (d : Decoder) : Nat × Decoder :=
  let r := d.ReadBytes 2
  (decode16 d.bo r.1, r.2)

/-- ReadUInt32 reads four bytes in the current byte order. -/
def ReadUInt32 (d : Decoder) : Nat × Decoder :=
  let r := d.ReadBytes 4
  (decode32 d.bo r.1, r.2)

/-- ReadInt16 reads a two's-complement int16. -/
def ReadInt16 (d : Decoder) : Int × Decoder :=
  let r := d.ReadUInt16
  (toSigned16 r.1, r.2)

/-- ReadInt32 reads a two's-complement int32. -/
def ReadInt32 (d : Decoder) : Int × Decoder :=
  let r := d.ReadUInt32
  (toSigned32 r.1, r.2)

/-- ReadFloat32 reads a float32; the value is modelled by its IEEE bit
pattern, which binary.Read moves verbatim from the four bytes. -/
def ReadFloat32 (d : Decoder) : Nat × Decoder := d.ReadUInt32

/-- ReadFloat64 reads a float64, modelled by its IEEE bit pattern. -/
def ReadFloat64 (d : Decoder) : Nat × Decoder :=
  let r := d.ReadBytes 8
  (decode64 d.bo r.1, r.2)

/-- Skip consumes the given number of bytes (buffer.go). -/
def Skip (d : Decoder) (n : Nat) : Decoder := (d.ReadBytes n).2

/-- PushLimit installs a new limit at the current position plus the
given byte count; a limit beyond the current one records an error and
installs an empty view (buffer.go). -/
def PushLimit (d : Decoder) (n : Nat) : Decoder :=
  let newLimit := d.pos + n
  if d.limit < newLimit then
    let d2 := d.SetError "Trying to read bytes beyond buffer end"
    { d2 with oldLimits := d2.limit :: d2.oldLimits, limit := d2.pos }
  else
    { d with oldLimits := d.limit :: d.oldLimits, limit := newLimit }

/-- PopLimit restores the limit saved by the last PushLimit
(buffer.go); popping with an empty stack is a programming error in the
source (a panic) and is modelled as the identity. -/
def PopLimit (d : Decoder) : Decoder :=
  match d.oldLimits with
  | [] => d
  | l :: rest => { d with limit := l, oldLimits := rest }

end Decoder

/-- Encoder is the accumulating writer of buffer.go with a sticky first
error; the writer snapshots use the dicomio method names (WriteBytes,
WriteUInt16, ...), whose bodies are the Encode* methods of buffer.go. -/
structure Encoder : Type where
  buf : List Nat
  err : Option String
  bo : ByteOrder
  implicit : IsImplicitVR
deriving DecidableEq

/-- NewBytesEncoder creates an empty in-memory encoder; the writer
snapshots name it NewBytesEncoder (earlier eras: NewEncoder). -/
def NewBytesEncoder (bo : ByteOrder) (implicit : IsImplicitVR) : Encoder :=
  ⟨[], none, bo, implicit⟩

namespace Encoder

/-- SetError records the error to be reported later; the first recorded
error is kept (buffer.go). -/
def SetError (e : Encoder) (msg : String) : Encoder :=
  match e.err with
  | none => { e with err := some msg }
  | some _ => e

/-- Error returns the first error recorded so far. -/
def Error (e : Encoder) : Option String := e.err

/-- Bytes returns the accumulated output. -/
def Bytes (e : Encoder) : List Nat := e.buf

/-- WriteByte appends a single byte. -/
def WriteByte (e : Encoder) (v : Nat) : Encoder :=
  { e with buf := e.buf ++ [v % 256] }

/-- WriteBytes appends a byte sequence verbatim. -/
def WriteBytes (e : Encoder) (v : List Nat) : Encoder :=
  { e with buf := e.buf ++ v }

/-- WriteString appends the bytes of a Go string verbatim. -/
def WriteString (e : Encoder) (v : GoStr) : Encoder :=
  { e with buf := e.buf ++ v }

/-- WriteZeros appends a run of zero bytes. -/
def WriteZeros (e : Encoder) (n : Nat) : Encoder :=
  { e with buf := e.buf ++ List.replicate n 0 }

/-- WriteUInt16 appends a uint16 in the current byte order. -/
def WriteUInt16 (e : Encoder) (v : Nat) : Encoder :=
  { e with buf := e.buf ++ encode16 e.bo v }

/-- WriteUInt32 appends a uint32 in the current byte order. -/
def WriteUInt32 (e : Encoder) (v : Nat) : Encoder :=
  { e with buf := e.buf ++ encode32 e.bo v }

/-- WriteInt16 appends a two's-complement int16. -/
def WriteInt16 (e : Encoder) (i : Int) : Encoder := e.WriteUInt16 (intToU16 i)

/-- WriteInt32 appends a two's-complement int32. -/
def WriteInt32 (e : Encoder) (i : Int) : Encoder := e.WriteUInt32 (intToU32 i)

/-- WriteFloat32 appends a float32 given by its IEEE bit pattern. -/
def WriteFloat32 (e : Encoder) (bits : Nat) : Encoder := e.WriteUInt32 bits

/-- WriteFloat64 appends a float64 given by its IEEE bit pattern. -/
def WriteFloat64 (e : Encoder) (bits : Nat) : Encoder :=
  { e with buf := e.buf ++ encode64 e.bo bits }

end Encoder

/-- NativeByteOrder of the reference platform (amd64), used by the OW
branches of the reader and writer. -/
def NativeByteOrder : ByteOrder := .littleEndian

/-- PixelDataInfo is the payload of a PixelData element: the basic
offset table and the encapsulated frames (named ImageData in the
element-reader snapshot of dicom.go; the two structs are identical). -/
structure PixelDataInfo : Type where
  offsets : List Nat
  frames : List (List Nat)
deriving DecidableEq

mutual
/-- DValue is one entry of the heterogeneous Value slice of an element:
a Go string, a byte blob, a fixed-width integer, a float (by bit
pattern), a Tag, a PixelDataInfo, or a nested element. -/
inductive DValue : Type where
  | vStr : GoStr → DValue
  | vBytes : List Nat → DValue
  | vU16 : Nat → DValue
  | vU32 : Nat → DValue
  | vI16 : Int → DValue
  | vI32 : Int → DValue
  | vF32 : Nat → DValue
  | vF64 : Nat → DValue
  | vTag : Tag → DValue
  | vPixelData : PixelDataInfo → DValue
  | vElem : Element → DValue
/-- Element is one DICOM data element: tag, VR, the undefined-length
flag, and the list of values (dicom.go). -/
inductive Element : Type where
  | mk : Tag → GoStr → Bool → List DValue → Element
end

namespace Element

/-- Projection of the tag of an element. -/
def tag : Element → Tag
  | .mk t _ _ _ => t

/-- Projection of the VR of an element. -/
def vr : Element → GoStr
  | .mk _ v _ _ => v

/-- Projection of the undefined-length flag of an element. -/
def undefinedLength : Element → Bool
  | .mk _ _ u _ => u

/-- Projection of the value list of an element. -/
def value : Element → List DValue
  | .mk _ _ _ vs => vs

/-- GetStrings returns the list of strings stored in the element, or an
error when a value of another type is found (dicom.go). -/
def GetStrings (e : Element) : Except String (List GoStr) :=
  go e.value
where
  /-- Accumulation over the value list, mirroring the loop of
  GetStrings. -/
  go : List DValue → Except String (List GoStr)
    | [] => .ok []
    | .vStr s :: rest => (go rest).map (fun tl => s :: tl)
    | _ :: _ => .error "string value not found"

end Element

/-- ReadOptions of the element reader; DropPixelData suppresses the
PixelData element (dicom.go). -/
structure ReadOptions : Type where
  DropPixelData : Bool
deriving DecidableEq

/-- Sentinel for an undefined value length (dicom.go, the element-reader
snapshot: const undefinedLength uint32 = 0xffffffff). -/
def undefinedLength : Nat := 0xffffffff

/-- Membership in the long-form VR set of the explicit header format
(the switch cases shared by readExplicit and encodeElementHeader). -/
def isLongFormVR (vr : GoStr) : Bool :=
  vr = gs "NA" ∨ vr = gs "OB" ∨ vr = gs "OD" ∨ vr = gs "OF" ∨ vr = gs "OL" ∨
    vr = gs "OW" ∨ vr = gs "SQ" ∨ vr = gs "UN" ∨ vr = gs "UC" ∨ vr = gs "UR" ∨
    vr = gs "UT"

/-- Byte values trimmed from string payloads: the space and NUL cutset
of strings.Trim(v, " \000") in the element reader. -/
def isTrimByte (b : Nat) : Bool := b = 32 ∨ b = 0

/-- goTrim models strings.Trim(v, " \000"): spaces and NUL bytes are
removed from both ends of the string. -/
def goTrim (l : GoStr) : GoStr :=
  ((l.dropWhile isTrimByte).reverse.dropWhile isTrimByte).reverse

/-- goSplitBackslash models strings.Split(str, "\x5c\x5c" in source
spelling, a single backslash byte): the string is cut at every
backslash (byte 92); the empty string yields one empty piece. -/
def goSplitBackslash : GoStr → List GoStr
  | [] => [[]]
  | b :: rest =>
    if b = 92 then [] :: goSplitBackslash rest
    else
      match goSplitBackslash rest with
      | [] => [[b]]
      | chunk :: chunks => (b :: chunk) :: chunks

/-- readTag reads the group and element halves of a data element tag
(dicom.go). -/
def readTag (d : Decoder) : Tag × Decoder :=
  let (group, d) := d.ReadUInt16
  let (element, d) := d.ReadUInt16
  (⟨group, element⟩, d)

/-- readImplicit reads the header of an implicit-VR element: the VR
comes from the dictionary (UN when unknown), the VL is a uint32, the
sentinel 0xFFFFFFFF marks undefined length, and a defined odd VL
records a protocol error (dicom.go, element-reader snapshot). -/
def readImplicit (d : Decoder) (tag : Tag) : GoStr × Nat × Decoder :=
  let vr : GoStr :=
    match FindTag tag with
    | .ok entry => entry.VR
    | .error _ => gs "UN"
  let (vl, d) := d.ReadUInt32
  let vl := if vl = 0xffffffff then undefinedLength else vl
  let d :=
    if vl ≠ undefinedLength ∧ vl % 2 ≠ 0 then
      d.SetError "Encountered odd length when reading implicit VR"
    else d
  (vr, vl, d)

/-- readExplicit reads the header of an explicit-VR element: two VR
bytes, then for long-form VRs two reserved bytes and a uint32 VL (where
the sentinel 0xFFFFFFFF is an error for UC, UR and UT) and otherwise a
uint16 VL (where 0xFFFF becomes the undefined-length sentinel); a
defined odd VL records a protocol error (dicom.go, element-reader
snapshot). -/
def readExplicit (d : Decoder) (_tag : Tag) : GoStr × Nat × Decoder :=
  let (vr, d) := d.ReadString 2
  let vl : Nat := if vr = gs "US" then 2 else 0
  let (vl, d) :=
    if isLongFormVR vr then
      let d := d.Skip 2
      let (vl, d) := d.ReadUInt32
      if vl = 0xffffffff then
        if vr = gs "UC" ∨ vr = gs "UR" ∨ vr = gs "UT" then
          (vl, d.SetError "UC, UR and UT may not have an Undefined Length")
        else (undefinedLength, d)
      else (vl, d)
    else
      let (vl16, d) := d.ReadUInt16
      let _ := vl
      if vl16 = 0xffff then (undefinedLength, d) else (vl16, d)
  let d :=
    if vl ≠ undefinedLength ∧ vl % 2 ≠ 0 then
      d.SetError "Encountered odd length when reading explicit VR"
    else d
  (vr, vl, d)

/-- readRawItem reads one Item of an encapsulated PixelData stream as
raw bytes, returning the payload and the end-of-data flag (dicom.go). -/
def readRawItem (d : Decoder) : List Nat × Bool × Decoder :=
  let (tag, d) := readTag d
  let (vr, vl, d) := readImplicit d tag
  if d.err ≠ none then ([], true, d)
  else if tag = TagSequenceDelimitationItem then
    let d := if vl ≠ 0 then d.SetError "SequenceDelimitationItem VL is not 0" else d
    ([], true, d)
  else if tag ≠ TagItem then
    ([], false, d.SetError "Expect Item in pixeldata but found other tag")
  else if vl = undefinedLength then
    ([], false, d.SetError "Expect defined-length item in pixeldata")
  else if vr ≠ gs "NA" then
    ([], true, d.SetError "Expect NA item")
  else
    let (bytes, d) := d.ReadBytes vl
    (bytes, false, d)

/-- readOffsetsLoop drains the sub-decoder of the basic offset table,
one uint32 per iteration, while bytes remain and no error has been
recorded (the loop inside readBasicOffsetTable of dicom.go). -/
def readOffsetsLoop : Nat → Decoder → List Nat
  | 0, _ => []
  | fuel + 1, subd =>
    if subd.Len > 0 ∧ subd.err = none then
      let (v, subd) := subd.ReadUInt32
      v :: readOffsetsLoop fuel subd
    else []

/-- readBasicOffsetTable reads the first Item of an encapsulated
PixelData element and interprets its payload as uint32 frame offsets;
an empty payload yields the single offset 0 (dicom.go). -/
def readBasicOffsetTable (d : Decoder) : List Nat × Decoder :=
  let (data, endOfData, d) := readRawItem d
  let d := if endOfData then d.SetError "basic offset table not found" else d
  if data.length = 0 then ([0], d)
  else
    let subd := NewBytesDecoder data d.bo .ImplicitVR
    (readOffsetsLoop (data.length + 1) subd, d)

/-- readDALoop reads DA values: 8-byte dates, extended to 10 bytes when
the first 8 contain a dot (dicom.go). -/
def readDALoop : Nat → Decoder → List DValue × Decoder
  | 0, d => ([], d)
  | fuel + 1, d =>
    if d.Len > 0 ∧ d.err = none then
      let (date, d) := d.ReadString 8
      let (date, d) :=
        if date.contains 46 then
          let (ext, d) := d.ReadString 2
          (date ++ ext, d)
        else (date, d)
      let (rest, d) := readDALoop fuel d
      (.vStr date :: rest, d)
    else ([], d)

/-- readATLoop reads AT values as pairs of uint16 halves forming a Tag
(dicom.go). -/
def readATLoop : Nat → Decoder → List DValue × Decoder
  | 0, d => ([], d)
  | fuel + 1, d =>
    if d.Len > 0 ∧ d.err = none then
      let (g, d) := d.ReadUInt16
      let (el, d) := d.ReadUInt16
      let (rest, d) := readATLoop fuel d
      (.vTag ⟨g, el⟩ :: rest, d)
    else ([], d)

/-- readOWWords re-emits the given count of uint16 words into the
native-order sub-encoder of the OW branch (dicom.go). -/
def readOWWords : Nat → Decoder → Encoder → Decoder × Encoder
  | 0, d, e => (d, e)
  | n + 1, d, e =>
    let (v, d) := d.ReadUInt16
    readOWWords n d (e.WriteUInt16 v)

/-- readUInt32Loop reads UL values while bytes remain and no error has
been recorded (dicom.go). -/
def readUInt32Loop : Nat → Decoder → List DValue × Decoder
  | 0, d => ([], d)
  | fuel + 1, d =>
    if d.Len > 0 ∧ d.err = none then
      let (v, d) := d.ReadUInt32
      let (rest, d) := readUInt32Loop fuel d
      (.vU32 v :: rest, d)
    else ([], d)

/-- readInt32Loop reads SL values (dicom.go). -/
def readInt32Loop : Nat → Decoder → List DValue × Decoder
  | 0, d => ([], d)
  | fuel + 1, d =>
    if d.Len > 0 ∧ d.err = none then
      let (v, d) := d.ReadInt32
      let (rest, d) := readInt32Loop fuel d
      (.vI32 v :: rest, d)
    else ([], d)

/-- readUInt16Loop reads US values (dicom.go). -/
def readUInt16Loop : Nat → Decoder → List DValue × Decoder
  | 0, d => ([], d)
  | fuel + 1, d =>
    if d.Len > 0 ∧ d.err = none then
      let (v, d) := d.ReadUInt16
      let (rest, d) := readUInt16Loop fuel d
      (.vU16 v :: rest, d)
    else ([], d)

/-- readInt16Loop reads SS values (dicom.go). -/
def readInt16Loop : Nat → Decoder → List DValue × Decoder
  | 0, d => ([], d)
  | fuel + 1, d =>
    if d.Len > 0 ∧ d.err = none then
      let (v, d) := d.ReadInt16
      let (rest, d) := readInt16Loop fuel d
      (.vI16 v :: rest, d)
    else ([], d)

/-- readFloat32Loop reads FL values by bit pattern (dicom.go). -/
def readFloat32Loop : Nat → Decoder → List DValue × Decoder
  | 0, d => ([], d)
  | fuel + 1, d =>
    if d.Len > 0 ∧ d.err = none then
      let (v, d) := d.ReadFloat32
      let (rest, d) := readFloat32Loop fuel d
      (.vF32 v :: rest, d)
    else ([], d)

/-- readFloat64Loop reads FD values by bit pattern (dicom.go). -/
def readFloat64Loop : Nat → Decoder → List DValue × Decoder
  | 0, d => ([], d)
  | fuel + 1, d =>
    if d.Len > 0 ∧ d.err = none then
      let (v, d) := d.ReadFloat64
      let (rest, d) := readFloat64Loop fuel d
      (.vF64 v :: rest, d)
    else ([], d)

/-- readScalarData dispatches on the VR of a defined-length scalar
element and produces its value list, mirroring the scalar branch of
ReadElement (dicom.go); the limit has already been pushed. -/
def readScalarData (fuel : Nat) (d : Decoder) (vr : GoStr) (vl : Nat) :
    List DValue × Decoder :=
  if vr = gs "DA" then readDALoop fuel d
  else if vr = gs "AT" then readATLoop fuel d
  else if vr = gs "OW" then
    if vl % 2 ≠ 0 then ([], d.SetError "OW requires even length")
    else
      let (d, e) := readOWWords (vl / 2) d (NewBytesEncoder NativeByteOrder .UnknownVR)
      ([.vBytes e.buf], d)
  else if vr = gs "OB" then
    let (bytes, d) := d.ReadBytes vl
    ([.vBytes bytes], d)
  else if vr = gs "LT" ∨ vr = gs "UT" then
    let (str, d) := d.ReadString vl
    ([.vStr str], d)
  else if vr = gs "UL" then readUInt32Loop fuel d
  else if vr = gs "SL" then readInt32Loop fuel d
  else if vr = gs "US" then readUInt16Loop fuel d
  else if vr = gs "SS" then readInt16Loop fuel d
  else if vr = gs "FL" then readFloat32Loop fuel d
  else if vr = gs "FD" then readFloat64Loop fuel d
  else
    let (v, d) := d.ReadString vl
    let str := goTrim v
    (if str.length > 0 then (goSplitBackslash str).map .vStr else [], d)

mutual
/-- ReadElement reads one DICOM data element: the tag, the VR and VL in
the active transfer syntax (always implicit for group 0xFFFE), then the
payload by VR kind, with recursion for SQ and Item and the dedicated
PixelData branch; errors are reported through the decoder and yield
none (dicom.go, lines 1091-1310 of the element-reader snapshot).  The
single source function is embedded as three staged functions
(ReadElement, readElementAfterTag, readElementDispatch), each covering
a contiguous section of its body.  The fuel argument bounds the
recursion depth; the source terminates because every iteration consumes
input. -/
def ReadElement : Nat → Decoder → ReadOptions → Option Element × Decoder
  | 0, d, _ => (none, d)
  | fuel + 1, d, options =>
    let (tag, d) := readTag d
    if tag = TagPixelData ∧ options.DropPixelData then (none, d)
    else readElementAfterTag fuel d options tag

/-- readElementAfterTag is the header section of ReadElement: the VR
and VL are read in the active transfer syntax (always implicit for
group 0xFFFE), and a recorded error aborts with none. -/
def readElementAfterTag : Nat → Decoder → ReadOptions → Tag → Option Element × Decoder
  | 0, d, _, _ => (none, d)
  | fuel + 1, d, options, tag =>
    let implicit := if tag.group = itemSeqGroup then IsImplicitVR.ImplicitVR else d.implicit
    let (vr, vl, d) :=
      if implicit = .ImplicitVR then readImplicit d tag else readExplicit d tag
    if d.err ≠ none then (none, d)
    else readElementDispatch fuel d options tag vr vl

/-- readElementDispatch is the payload section of ReadElement: the
PixelData, SQ, Item and scalar branches. -/
def readElementDispatch : Nat → Decoder → ReadOptions → Tag → GoStr → Nat →
    Option Element × Decoder
  | 0, d, _, _, _, _ => (none, d)
  | fuel + 1, d, options, tag, vr, vl =>
    let undef := decide (vl = undefinedLength)
    if tag = TagPixelData then
      if vl = undefinedLength then
        let (offsets, d) := readBasicOffsetTable d
        let (frames, d) := readPixelFrames fuel d
        (some (.mk tag vr undef [.vPixelData ⟨offsets, frames⟩]), d)
      else
        let (bytes, d) := d.ReadBytes vl
        (some (.mk tag vr undef [.vPixelData ⟨[], [bytes]⟩]), d)
    else if vr = gs "SQ" then
      if vl = undefinedLength then
        let (items, d) := readSQUndefItems fuel d options
        (some (.mk tag vr undef items), d)
      else
        let d := d.PushLimit vl
        let (items, d) := readSQDefItems fuel d options
        (some (.mk tag vr undef items), d.PopLimit)
    else if tag = TagItem then
      if vl = undefinedLength then
        let (subelems, d) := readItemUndefElems fuel d options
        (some (.mk tag vr undef subelems), d)
      else
        let d := d.PushLimit vl
        let (subelems, d) := readItemDefElems fuel d options
        (some (.mk tag vr undef subelems), d.PopLimit)
    else
      if vl = undefinedLength then
        (none, d.SetError "Undefined length disallowed for this VR")
      else
        let d := d.PushLimit vl
        let (data, d) := readScalarData fuel d vr vl
        (some (.mk tag vr undef data), d.PopLimit)

/-- readSQUndefItems reads the children of an undefined-length SQ until
the SequenceDelimitation pseudo-element; a child that is not an Item
records an error (dicom.go). -/
def readSQUndefItems : Nat → Decoder → ReadOptions → List DValue × Decoder
  | 0, d, _ => ([], d)
  | fuel + 1, d, options =>
    let (item, d) := ReadElement fuel d options
    if d.err ≠ none then ([], d)
    else
      match item with
      | none => ([], d)
      | some item =>
        if item.tag = TagSequenceDelimitationItem then ([], d)
        else if item.tag ≠ TagItem then
          ([], d.SetError "Found non-Item element in seq w undefined length")
        else
          let (rest, d) := readSQUndefItems fuel d options
          (.vElem item :: rest, d)

/-- readSQDefItems reads the children of a defined-length SQ until its
pushed limit is exhausted; a child that is not an Item records an error
(dicom.go). -/
def readSQDefItems : Nat → Decoder → ReadOptions → List DValue × Decoder
  | 0, d, _ => ([], d)
  | fuel + 1, d, options =>
    if d.Len > 0 then
      let (item, d) := ReadElement fuel d options
      if d.err ≠ none then ([], d)
      else
        match item with
        | none => ([], d)
        | some item =>
          if item.tag ≠ TagItem then
            ([], d.SetError "Found non-Item element in seq w undefined length")
          else
            let (rest, d) := readSQDefItems fuel d options
            (.vElem item :: rest, d)
    else ([], d)

/-- readItemUndefElems reads the children of an undefined-length Item
until the ItemDelimitation pseudo-element (dicom.go). -/
def readItemUndefElems : Nat → Decoder → ReadOptions → List DValue × Decoder
  | 0, d, _ => ([], d)
  | fuel + 1, d, options =>
    let (subelem, d) := ReadElement fuel d options
    if d.err ≠ none then ([], d)
    else
      match subelem with
      | none => ([], d)
      | some subelem =>
        if subelem.tag = TagItemDelimitationItem then ([], d)
        else
          let (rest, d) := readItemUndefElems fuel d options
          (.vElem subelem :: rest, d)

/-- readItemDefElems reads the children of a defined-length Item until
its pushed limit is exhausted (dicom.go). -/
def readItemDefElems : Nat → Decoder → ReadOptions → List DValue × Decoder
  | 0, d, _ => ([], d)
  | fuel + 1, d, options =>
    if d.Len > 0 then
      let (subelem, d) := ReadElement fuel d options
      if d.err ≠ none then ([], d)
      else
        match subelem with
        | none => ([], d)
        | some subelem =>
          let (rest, d) := readItemDefElems fuel d options
          (.vElem subelem :: rest, d)
    else ([], d)

/-- readPixelFrames reads encapsulated PixelData Items as raw frames
until the SequenceDelimitation raw item or an error (the frame loop of
the PixelData branch in dicom.go). -/
def readPixelFrames : Nat → Decoder → List (List Nat) × Decoder
  | 0, d => ([], d)
  | fuel + 1, d =>
    if d.Len > 0 then
      let (chunk, endOfItems, d) := readRawItem d
      if d.err ≠ none then ([], d)
      else if endOfItems then ([], d)
      else
        let (rest, d) := readPixelFrames fuel d
        (chunk :: rest, d)
    else ([], d)
end

/-- resolveWriteVR is the VR-resolution prologue of WriteElement
(part 004 of the unnamed sources, lines 562-583): prefer the element's
VR; an empty VR falls back to the dictionary's VR, or UN on a
dictionary miss; when both the element's VR and the dictionary's VR are
present but differ, the write is rejected unless both map to the same
VR kind (a same-kind difference is only logged). -/
def resolveWriteVR (tag : Tag) (vr : GoStr) : Except String GoStr :=
  match FindTag tag with
  | .ok entry =>
    if vr = [] then .ok entry.VR
    else if entry.VR ≠ vr then
      if GetVRKind tag entry.VR ≠ GetVRKind tag vr then
        .error "VR value mismatch for tag: element VR differs in kind from the DICOM standard VR"
      else .ok vr
    else .ok vr
  | .error _ => if vr = [] then .ok (gs "UN") else .ok vr

/-- encodeElementHeader emits the tag, then the VR and VL in the active
transfer syntax; elements of group 0xFFFE always use implicit framing
(part 004 of the unnamed sources). -/
def encodeElementHeader (e : Encoder) (tag : Tag) (vr : GoStr) (vl : Nat) : Encoder :=
  let e := e.WriteUInt16 tag.group
  let e := e.WriteUInt16 tag.element
  let implicit := if tag.group = itemSeqGroup then IsImplicitVR.ImplicitVR else e.implicit
  if implicit = .ExplicitVR then
    let e := e.WriteString vr
    if isLongFormVR vr then (e.WriteZeros 2).WriteUInt32 vl
    else e.WriteUInt16 vl
  else e.WriteUInt32 vl

/-- writeRawItem emits one Item header with a defined length followed by
the raw payload (part 004 of the unnamed sources). -/
def writeRawItem (e : Encoder) (data : List Nat) : Encoder :=
  (encodeElementHeader e TagItem (gs "NA") data.length).WriteBytes data

/-- writeOffsetWords serializes the offset table entries as uint32
words into the sub-encoder of writeBasicOffsetTable. -/
def writeOffsetWords (sub : Encoder) : List Nat → Encoder
  | [] => sub
  | offset :: rest => writeOffsetWords (sub.WriteUInt32 offset) rest

/-- writeBasicOffsetTable serializes the offsets as uint32s in the
current byte order into a sub-encoder and emits them as one raw Item
(part 004 of the unnamed sources). -/
def writeBasicOffsetTable (e : Encoder) (offsets : List Nat) : Encoder :=
  let sub := NewBytesEncoder e.bo .ImplicitVR
  let sub := writeOffsetWords sub offsets
  writeRawItem e sub.buf

/-- writeFrames emits one raw Item per encapsulated frame (the frame
loop of the PixelData branch of WriteElement). -/
def writeFrames (e : Encoder) (frames : List (List Nat)) : Encoder :=
  frames.foldl writeRawItem e

/-- writeU16Vals writes US values into the sub-encoder; a value of the
wrong type records an error on the outer encoder and is skipped
(the US case of WriteElement). -/
def writeU16Vals : Encoder → Encoder → List DValue → Encoder × Encoder
  | e, sube, [] => (e, sube)
  | e, sube, v :: rest =>
    match v with
    | .vU16 n => writeU16Vals e (sube.WriteUInt16 n) rest
    | _ => writeU16Vals (e.SetError "expect uint16 value") sube rest

/-- writeU32Vals writes UL values (the UL case of WriteElement). -/
def writeU32Vals : Encoder → Encoder → List DValue → Encoder × Encoder
  | e, sube, [] => (e, sube)
  | e, sube, v :: rest =>
    match v with
    | .vU32 n => writeU32Vals e (sube.WriteUInt32 n) rest
    | _ => writeU32Vals (e.SetError "expect uint32 value") sube rest

/-- writeI32Vals writes SL values (the SL case of WriteElement). -/
def writeI32Vals : Encoder → Encoder → List DValue → Encoder × Encoder
  | e, sube, [] => (e, sube)
  | e, sube, v :: rest =>
    match v with
    | .vI32 n => writeI32Vals e (sube.WriteInt32 n) rest
    | _ => writeI32Vals (e.SetError "expect int32 value") sube rest

/-- writeI16Vals writes SS values (the SS case of WriteElement). -/
def writeI16Vals : Encoder → Encoder → List DValue → Encoder × Encoder
  | e, sube, [] => (e, sube)
  | e, sube, v :: rest =>
    match v with
    | .vI16 n => writeI16Vals e (sube.WriteInt16 n) rest
    | _ => writeI16Vals (e.SetError "expect int16 value") sube rest

/-- writeF32Vals writes FL values (the FL case of WriteElement). -/
def writeF32Vals : Encoder → Encoder → List DValue → Encoder × Encoder
  | e, sube, [] => (e, sube)
  | e, sube, v :: rest =>
    match v with
    | .vF32 n => writeF32Vals e (sube.WriteFloat32 n) rest
    | _ => writeF32Vals (e.SetError "expect float32 value") sube rest

/-- writeF64Vals writes FD values (the FD case of WriteElement). -/
def writeF64Vals : Encoder → Encoder → List DValue → Encoder × Encoder
  | e, sube, [] => (e, sube)
  | e, sube, v :: rest =>
    match v with
    | .vF64 n => writeF64Vals e (sube.WriteFloat64 n) rest
    | _ => writeF64Vals (e.SetError "expect float64 value") sube rest

/-- joinStrs builds the backslash-joined payload of the string branch
of WriteElement; a non-string value records an error on the outer
encoder and is skipped, while the range index keeps advancing as in the
source loop. -/
def joinStrs : Encoder → Nat → List DValue → GoStr → Encoder × GoStr
  | e, _, [], s => (e, s)
  | e, i, v :: rest, s =>
    match v with
    | .vStr sub => joinStrs e (i + 1) rest (s ++ (if i > 0 then [92] else []) ++ sub)
    | _ => joinStrs (e.SetError "Non-string value found") (i + 1) rest s

/-- writeScalarPayload serializes the value list of a scalar element
into the sub-encoder, dispatching on the VR exactly as the scalar
switch of WriteElement; type errors land on the outer encoder.  The AT
and NA cases fall through to the string branch as in the source. -/
def writeScalarPayload (vr : GoStr) (e : Encoder) (sube : Encoder) (values : List DValue) :
    Encoder × Encoder :=
  if vr = gs "US" then writeU16Vals e sube values
  else if vr = gs "UL" then writeU32Vals e sube values
  else if vr = gs "SL" then writeI32Vals e sube values
  else if vr = gs "SS" then writeI16Vals e sube values
  else if vr = gs "FL" then writeF32Vals e sube values
  else if vr = gs "FD" then writeF64Vals e sube values
  else if vr = gs "OW" ∨ vr = gs "OB" then
    match values with
    | [.vBytes bytes] =>
      if vr = gs "OW" then
        if bytes.length % 2 ≠ 0 then
          (e.SetError "expect a binary string of even length", sube)
        else
          let r := readOWWords (bytes.length / 2)
            (NewBytesDecoder bytes NativeByteOrder .UnknownVR) sube
          (e, r.2)
      else
        let sube := sube.WriteBytes bytes
        (e, if bytes.length % 2 = 1 then sube.WriteByte 0 else sube)
    | [_] => (e.SetError "expect a binary string", sube)
    | _ => (e.SetError "expect a single value", sube)
  else
    let (e, s) := joinStrs e 0 values []
    let sube := sube.WriteString s
    (e, if s.length % 2 = 1 then sube.WriteByte 0 else sube)

mutual
/-- WriteElement encodes one data element (part 004 of the unnamed
sources, lines 562-793): the effective VR is resolved first (a
kind-incompatible VR mismatch records an error and writes nothing),
then the PixelData, SQ, Item and scalar branches emit the payload into
a sub-encoder and the header with the resulting byte count, or the
undefined-length sentinel with explicit delimiters. -/
def WriteElement (e : Encoder) : Element → Encoder
  | .mk tag evr undef values =>
    match resolveWriteVR tag evr with
    | .error msg => e.SetError msg
    | .ok vr =>
      if tag = TagPixelData then
        match values with
        | [.vPixelData image] =>
          if undef then
            let e := encodeElementHeader e tag vr undefinedLength
            let e := writeBasicOffsetTable e image.offsets
            let e := writeFrames e image.frames
            encodeElementHeader e TagSequenceDelimitationItem [] 0
          else
            match image.frames with
            | [frame] => (encodeElementHeader e tag vr frame.length).WriteBytes frame
            | _ => e.SetError "PixelData must carry a single frame when the length is defined"
        | _ => e.SetError "PixelData element must have one value of type PixelDataInfo"
      else if vr = gs "SQ" then
        if undef then
          let e := encodeElementHeader e tag vr undefinedLength
          match writeSQChildren e values with
          | (e, some msg) => e.SetError msg
          | (e, none) => encodeElementHeader e TagSequenceDelimitationItem [] 0
        else
          match writeSQChildren (NewBytesEncoder e.bo e.implicit) values with
          | (_, some msg) => e.SetError msg
          | (sube, none) =>
            match sube.err with
            | some msg => e.SetError msg
            | none => (encodeElementHeader e tag vr sube.buf.length).WriteBytes sube.buf
      else if vr = gs "NA" then
        if undef then
          let e := encodeElementHeader e tag vr undefinedLength
          match writeItemChildren e values with
          | (e, some msg) => e.SetError msg
          | (e, none) => encodeElementHeader e TagItemDelimitationItem [] 0
        else
          match writeItemChildren (NewBytesEncoder e.bo e.implicit) values with
          | (_, some msg) => e.SetError msg
          | (sube, none) =>
            match sube.err with
            | some msg => e.SetError msg
            | none => (encodeElementHeader e tag vr sube.buf.length).WriteBytes sube.buf
      else
        if undef then
          e.SetError "Encoding undefined-length element not yet supported"
        else
          let sube := NewBytesEncoder e.bo e.implicit
          match writeScalarPayload vr e sube values with
          | (e, sube) =>
            match sube.err with
            | some msg => e.SetError msg
            | none => (encodeElementHeader e tag vr sube.buf.length).WriteBytes sube.buf

/-- writeSQChildren writes the child Items of an SQ element; a value
that is not an Item element aborts with the error message of the
source, which the caller records before returning (the SQ child loops
of WriteElement). -/
def writeSQChildren (e : Encoder) : List DValue → Encoder × Option String
  | [] => (e, none)
  | v :: rest =>
    match v with
    | .vElem sub =>
      if sub.tag = TagItem then writeSQChildren (WriteElement e sub) rest
      else (e, some "SQ element must be an Item")
    | _ => (e, some "SQ element must be an Item")

/-- writeItemChildren writes the child elements of an Item; a value
that is not an element aborts (the Item child loops of WriteElement). -/
def writeItemChildren (e : Encoder) : List DValue → Encoder × Option String
  | [] => (e, none)
  | v :: rest =>
    match v with
    | .vElem sub => writeItemChildren (WriteElement e sub) rest
    | _ => (e, some "Item values must be a dicom.Element")
end

/-! Transfer-syntax resolver (transfersyntax.go) over the UID registry. -/

/-- ImplicitVRLittleEndian transfer syntax UID (transfersyntax.go). -/
def ImplicitVRLittleEndian : String := "1.2.840.10008.1.2"

/-- ExplicitVRLittleEndian transfer syntax UID (transfersyntax.go). -/
def ExplicitVRLittleEndian : String := "1.2.840.10008.1.2.1"

/-- ExplicitVRBigEndian transfer syntax UID (transfersyntax.go). -/
def ExplicitVRBigEndian : String := "1.2.840.10008.1.2.2"

/-- DeflatedExplicitVRLittleEndian transfer syntax UID
(transfersyntax.go). -/
def DeflatedExplicitVRLittleEndian : String := "1.2.840.10008.1.2.1.99"

/-- UIDInfo is a row of the UID registry: the UID, its human name and
its type category. -/
structure UIDInfo : Type where
  uid : String
  name : String
  typ : String
deriving DecidableEq

/-- UIDTypeTransferSyntax is the category of transfer-syntax UIDs in
the registry. -/
def UIDTypeTransferSyntax : String := "Transfer Syntax"

/-- Modelled from the spec: the generated UID-registry data file is
absent from the sources (transfersyntax.go only consumes it through
LookupUID), so the table is restricted to the entries attested in the
repository: the four standard transfer syntaxes of the spec and of
transfersyntax.go, the LDAP OID 1.2.840.10008.15.0.4.8 whose name and
type are asserted by uid_test.go, and the JPEG transfer syntaxes named
by the sources (part 011 names 1.2.840.10008.1.2.4.50 and
1.2.840.10008.1.2.4.91; the doc comment of ParseTransferSyntaxUID names
1.2.840.10008.1.2.4.54). -/
def uidDict : List UIDInfo :=
  [ ⟨ImplicitVRLittleEndian, "Implicit VR Little Endian", UIDTypeTransferSyntax⟩,
    ⟨ExplicitVRLittleEndian, "Explicit VR Little Endian", UIDTypeTransferSyntax⟩,
    ⟨ExplicitVRBigEndian, "Explicit VR Big Endian", UIDTypeTransferSyntax⟩,
    ⟨DeflatedExplicitVRLittleEndian, "Deflated Explicit VR Little Endian",
      UIDTypeTransferSyntax⟩,
    ⟨"1.2.840.10008.1.2.4.50", "JPEG Baseline 1", UIDTypeTransferSyntax⟩,
    ⟨"1.2.840.10008.1.2.4.54", "JPEG Extended Hierarchical", UIDTypeTransferSyntax⟩,
    ⟨"1.2.840.10008.1.2.4.91", "JPEG 2000", UIDTypeTransferSyntax⟩,
    ⟨"1.2.840.10008.15.0.4.8", "dicomTransferCapability", "LDAP OID"⟩ ]

/-- LookupUID finds the registry entry for a UID, or an error when the
UID is not registered. -/
def LookupUID (uid : String) : Except String UIDInfo :=
  match uidDict.find? (fun e => e.uid = uid) with
  | some e => .ok e
  | none => .error "UID not found"

/-- CanonicalTransferSyntaxUID maps a transfer-syntax UID to one of the
four standards: the standards map to themselves; any other UID is
looked up in the registry, fails when its type is not TransferSyntax,
and otherwise falls through to explicit-VR little-endian
(transfersyntax.go). -/
def CanonicalTransferSyntaxUID (uid : String) : Except String String :=
  if uid = ImplicitVRLittleEndian ∨ uid = ExplicitVRLittleEndian ∨
      uid = ExplicitVRBigEndian ∨ uid = DeflatedExplicitVRLittleEndian then
    .ok uid
  else
    match LookupUID uid with
    | .error msg => .error msg
    | .ok e =>
      if e.typ ≠ UIDTypeTransferSyntax then
        .error "UID is not a transfer syntax"
      else
        .ok ExplicitVRLittleEndian

/-- ParseTransferSyntaxUID returns the byte order and the
implicit/explicit VR discipline of a transfer-syntax UID
(transfersyntax.go). -/
def ParseTransferSyntaxUID (uid : String) : Except String (ByteOrder × IsImplicitVR) :=
  match CanonicalTransferSyntaxUID uid with
  | .error msg => .error msg
  | .ok canonical =>
    if canonical = ImplicitVRLittleEndian then .ok (.littleEndian, .ImplicitVR)
    else if canonical = DeflatedExplicitVRLittleEndian ∨
        canonical = ExplicitVRLittleEndian then
      .ok (.littleEndian, .ExplicitVR)
    else if canonical = ExplicitVRBigEndian then .ok (.bigEndian, .ExplicitVR)
    else .ok (.bigEndian, .ExplicitVR)

/-! Character-set decoder (part 001 of the unnamed sources). -/

/-- CodingSystem holds the three text decoders installed by a
SpecificCharacterSet element; a decoder is modelled by the
golang-encoding name it resolves to, with none standing for the nil
decoder, which means 7-bit ASCII (part 001 of the unnamed sources). -/
structure CodingSystem : Type where
  Alphabetic : Option String
  Ideographic : Option String
  Phonetic : Option String
deriving DecidableEq

/-- htmlEncodingNames maps DICOM character-set names to
golang encoding/htmlindex names; the empty name means 7-bit ASCII
(part 001 of the unnamed sources). -/
def htmlEncodingNames : List (GoStr × String) :=
  [ (gs "ISO 2022 IR 6", ""),
    (gs "ISO_IR 13", "shift_jis"),
    (gs "ISO 2022 IR 13", "shift_jis"),
    (gs "ISO_IR 100", ""),
    (gs "ISO 2022 IR 100", ""),
    (gs "ISO_IR 101", "iso-8859-2"),
    (gs "ISO 2022 IR 101", "iso-8859-2"),
    (gs "ISO_IR 109", "iso-8859-3"),
    (gs "ISO 2022 IR 109", "iso-8859-3"),
    (gs "ISO_IR 110", "iso-8859-4"),
    (gs "ISO 2022 IR 110", "iso-8859-4"),
    (gs "ISO_IR 126", "iso-ir-126"),
    (gs "ISO 2022 IR 126", "iso-ir-126"),
    (gs "ISO_IR 127", "iso-ir-127"),
    (gs "ISO 2022 IR 127", "iso-ir-127"),
    (gs "ISO_IR 138", "iso-ir-138"),
    (gs "ISO 2022 IR 138", "iso-ir-138"),
    (gs "ISO_IR 144", "iso-ir-144"),
    (gs "ISO 2022 IR 144", "iso-ir-144"),
    (gs "ISO_IR 148", "iso-ir-148"),
    (gs "ISO 2022 IR 148", "iso-ir-148"),
    (gs "ISO 2022 IR 149", "euc-kr"),
    (gs "ISO 2022 IR 159", "iso-2022-jp"),
    (gs "ISO_IR 166", "iso-ir-166"),
    (gs "ISO 2022 IR 166", "iso-ir-166"),
    (gs "ISO 2022 IR 87", "iso-2022-jp") ]

/-- decoderForName resolves one character-set name to a decoder: an
unknown name falls back to the nil decoder (reported, treated as
UTF-8), a known name with the empty golang name is 7-bit ASCII (also
the nil decoder), and otherwise the named decoder is built (the loop
body of parseSpecificCharacterSet). -/
def decoderForName (name : GoStr) : Option String :=
  match htmlEncodingNames.find? (fun p => p.1 = name) with
  | none => none
  | some p => if p.2 = "" then none else some p.2

/-- parseSpecificCharacterSet parses a SpecificCharacterSet element into
the (alphabetic, ideographic, phonetic) decoder triple: with no name
all slots are the default, one name is shared by all three slots, with
two names the second fills slots 2 and 3, and three or more names fill
the slots positionally (part 001 of the unnamed sources,
lines 345-381). -/
def parseSpecificCharacterSet (elem : Element) : Except String CodingSystem :=
  match elem.GetStrings with
  | .error msg => .error msg
  | .ok encodingNames =>
    let decoders := encodingNames.map decoderForName
    match decoders with
    | [] => .ok ⟨none, none, none⟩
    | [d0] => .ok ⟨d0, d0, d0⟩
    | [d0, d1] => .ok ⟨d0, d1, d1⟩
    | d0 :: d1 :: d2 :: _ => .ok ⟨d0, d1, d2⟩

/-! Operation sequences over the byte I/O layer, used to state the
sticky-error policy. -/

/-- DecOp enumerates the decoder operations of the byte I/O layer that
a caller sequences. -/
inductive DecOp : Type where
  | opReadBytes : Nat → DecOp
  | opReadString : Nat → DecOp
  | opReadUInt16 : DecOp
  | opReadUInt32 : DecOp
  | opReadInt16 : DecOp
  | opReadInt32 : DecOp
  | opReadFloat32 : DecOp
  | opReadFloat64 : DecOp
  | opSkip : Nat → DecOp
  | opPushLimit : Nat → DecOp
  | opPopLimit : DecOp
  | opSetError : String → DecOp
deriving DecidableEq

/-- runDecOp applies one decoder operation, discarding the returned
value. -/
def runDecOp (d : Decoder) : DecOp → Decoder
  | .opReadBytes n => (d.ReadBytes n).2
  | .opReadString n => (d.ReadString n).2
  | .opReadUInt16 => d.ReadUInt16.2
  | .opReadUInt32 => d.ReadUInt32.2
  | .opReadInt16 => d.ReadInt16.2
  | .opReadInt32 => d.ReadInt32.2
  | .opReadFloat32 => d.ReadFloat32.2
  | .opReadFloat64 => d.ReadFloat64.2
  | .opSkip n => d.Skip n
  | .opPushLimit n => d.PushLimit n
  | .opPopLimit => d.PopLimit
  | .opSetError msg => d.SetError msg

/-- runDecOps applies a sequence of decoder operations in order. -/
def runDecOps (ops : List DecOp) (d : Decoder) : Decoder :=
  ops.foldl runDecOp d

/-- EncOp enumerates the encoder operations of the byte I/O layer. -/
inductive EncOp : Type where
  | opWriteByte : Nat → EncOp
  | opWriteBytes : List Nat → EncOp
  | opWriteString : GoStr → EncOp
  | opWriteZeros : Nat → EncOp
  | opWriteUInt16 : Nat → EncOp
  | opWriteUInt32 : Nat → EncOp
  | opWriteInt16 : Int → EncOp
  | opWriteInt32 : Int → EncOp
  | opWriteFloat32 : Nat → EncOp
  | opWriteFloat64 : Nat → EncOp
  | opSetError : String → EncOp
deriving DecidableEq

/-- runEncOp applies one encoder operation. -/
def runEncOp (e : Encoder) : EncOp → Encoder
  | .opWriteByte v => e.WriteByte v
  | .opWriteBytes v => e.WriteBytes v
  | .opWriteString v => e.WriteString v
  | .opWriteZeros n => e.WriteZeros n
  | .opWriteUInt16 v => e.WriteUInt16 v
  | .opWriteUInt32 v => e.WriteUInt32 v
  | .opWriteInt16 v => e.WriteInt16 v
  | .opWriteInt32 v => e.WriteInt32 v
  | .opWriteFloat32 v => e.WriteFloat32 v
  | .opWriteFloat64 v => e.WriteFloat64 v
  | .opSetError msg => e.SetError msg

/-- runEncOps applies a sequence of encoder operations in order. -/
def runEncOps (ops : List EncOp) (e : Encoder) : Encoder :=
  ops.foldl runEncOp e

/-! General evaluation lemmas about the byte I/O primitives, shared by
the claim proofs below. -/

/-- ReadBytes succeeds and slices the buffer when enough bytes remain
within the limit and in the underlying source. -/
theorem Decoder.ReadBytes_ok (buf : List Nat) (pos limit : Nat) (err : Option String)
    (bo : ByteOrder) (impl : IsImplicitVR) (ols : List Nat) (n : Nat)
    (h1 : pos + n ≤ limit) (h2 : pos + n ≤ buf.length) :
    (Decoder.mk buf pos limit err bo impl ols).ReadBytes n =
      ((buf.drop pos).take n, Decoder.mk buf (pos + n) limit err bo impl ols) := by
  have hn : ¬ ((Decoder.mk buf pos limit err bo impl ols).Len < n) := by
    simp only [Decoder.Len]
    omega
  simp only [Decoder.ReadBytes, if_neg hn]
  rw [if_pos h2]

/-- SetError always leaves a recorded error behind. -/
theorem Decoder.SetError_err_ne_none (d : Decoder) (msg : String) :
    (d.SetError msg).err ≠ none := by
  unfold Decoder.SetError
  cases h : d.err <;> simp [h]

/-- SetError keeps the first recorded error. -/
theorem Decoder.SetError_keeps_first (d : Decoder) (msg : String) (m : String)
    (h : d.err = some m) : (d.SetError msg).err = some m := by
  simp [Decoder.SetError, h]

/-- ReadBytes preserves a previously recorded first error. -/
theorem Decoder.ReadBytes_err_sticky (d : Decoder) (n : Nat) (m : String)
    (h : d.err = some m) : ((d.ReadBytes n).2).err = some m := by
  unfold Decoder.ReadBytes
  split_ifs with h1 h2
  · exact d.SetError_keeps_first _ _ h
  · simpa using h
  · exact Decoder.SetError_keeps_first _ _ _ (by simpa using h)

/-- Encoder SetError keeps the first recorded error. -/
theorem Encoder.SetError_holds_first (e : Encoder) (msg : String) (m : String)
    (h : e.err = some m) : (e.SetError msg).err = some m := by
  simp [Encoder.SetError, h]

/-- Decoding inverts encoding for uint16 values in both byte orders. -/
theorem decode16_encode16 (bo : ByteOrder) (v : Nat) (h : v < 2 ^ 16) :
    decode16 bo (encode16 bo v) = v := by
  cases bo <;> simp [decode16, encode16] <;> omega

/-- Decoding inverts encoding for uint32 values in both byte orders. -/
theorem decode32_encode32 (bo : ByteOrder) (v : Nat) (h : v < 2 ^ 32) :
    decode32 bo (encode32 bo v) = v := by
  cases bo <;> simp [decode32, encode32] <;> omega

/-- The two-byte length field 0xFF 0xFF decodes to 0xFFFF in both byte
orders. -/
theorem decode16_ffff (bo : ByteOrder) : decode16 bo [255, 255] = 0xffff := by
  cases bo <;> simp [decode16]

/-- The four-byte length field FF FF FF FF decodes to 0xFFFFFFFF in
both byte orders. -/
theorem decode32_ffffffff (bo : ByteOrder) : decode32 bo [255, 255, 255, 255] = 0xffffffff := by
  cases bo <;> simp [decode32]

/-- readExplicit evaluated on a stream whose next bytes declare a
short-form VR with the two-byte length field 0xFFFF: the VR is taken
from the stream and the length becomes the undefined-length sentinel,
with no error recorded. -/
theorem readExplicit_short_sentinel (buf : List Nat) (pos limit : Nat) (bo : ByteOrder)
    (impl : IsImplicitVR) (ols : List Nat) (tag : Tag) (a b : Nat)
    (rest : List Nat) (hlf : isLongFormVR [a, b] = false)
    (hdrop : buf.drop pos = a :: b :: 255 :: 255 :: rest)
    (hlim : pos + 4 ≤ limit) :
    readExplicit (Decoder.mk buf pos limit none bo impl ols) tag =
      ([a, b], undefinedLength, Decoder.mk buf (pos + 4) limit none bo impl ols) := by
  have hlenbuf : pos + 4 ≤ buf.length := by
    have := congrArg List.length hdrop
    simp [List.length_drop] at this
    omega
  have s1 := Decoder.ReadBytes_ok buf pos limit none bo impl ols 2 (by omega) (by omega)
  have s2 := Decoder.ReadBytes_ok buf (pos + 2) limit none bo impl ols 2 (by omega) (by omega)
  have ht1 : (buf.drop pos).take 2 = [a, b] := by rw [hdrop]; rfl
  have ht2 : (buf.drop (pos + 2)).take 2 = [255, 255] := by
    have hdd : buf.drop (pos + 2) = (buf.drop pos).drop 2 := by
      rw [List.drop_drop, Nat.add_comm]
    rw [hdd, hdrop]; rfl
  have h24 : pos + 2 + 2 = pos + 4 := by omega
  unfold readExplicit
  simp only [Decoder.ReadString, Decoder.ReadUInt16, s1, ht1, hlf, Bool.false_eq_true,
    if_false, s2, ht2, h24, decode16_ffff]
  simp only [if_true, ne_eq, eq_self_iff_true, not_true, false_and, if_false]

/-- readExplicit evaluated on a stream whose next bytes declare a
short-form VR with a defined even two-byte length field: the VR and the
length are taken from the stream, with no error recorded. -/
theorem readExplicit_short_defined (buf : List Nat) (pos limit : Nat) (bo : ByteOrder)
    (impl : IsImplicitVR) (ols : List Nat) (tag : Tag) (a b l1 l2 : Nat)
    (rest : List Nat) (hlf : isLongFormVR [a, b] = false)
    (hdrop : buf.drop pos = a :: b :: l1 :: l2 :: rest)
    (hlim : pos + 4 ≤ limit)
    (hl1 : l1 < 256) (hl2 : l2 < 256)
    (hne : decode16 bo [l1, l2] ≠ 0xffff) (heven : decode16 bo [l1, l2] % 2 = 0) :
    readExplicit (Decoder.mk buf pos limit none bo impl ols) tag =
      ([a, b], decode16 bo [l1, l2], Decoder.mk buf (pos + 4) limit none bo impl ols) := by
  have hlenbuf : pos + 4 ≤ buf.length := by
    have := congrArg List.length hdrop
    simp [List.length_drop] at this
    omega
  have s1 := Decoder.ReadBytes_ok buf pos limit none bo impl ols 2 (by omega) (by omega)
  have s2 := Decoder.ReadBytes_ok buf (pos + 2) limit none bo impl ols 2 (by omega) (by omega)
  have ht1 : (buf.drop pos).take 2 = [a, b] := by rw [hdrop]; rfl
  have ht2 : (buf.drop (pos + 2)).take 2 = [l1, l2] := by
    have hdd : buf.drop (pos + 2) = (buf.drop pos).drop 2 := by
      rw [List.drop_drop, Nat.add_comm]
    rw [hdd, hdrop]; rfl
  have h24 : pos + 2 + 2 = pos + 4 := by omega
  have hvlsmall : decode16 bo [l1, l2] < 2 ^ 16 := by
    cases bo <;> simp [decode16] <;> omega
  have hnotundef : ¬(decode16 bo [l1, l2] = undefinedLength) := by
    simp only [undefinedLength]
    omega
  unfold readExplicit
  simp only [Decoder.ReadString, Decoder.ReadUInt16, s1, ht1, hlf, Bool.false_eq_true,
    if_false, s2, ht2, h24, if_neg hne]
  simp [hnotundef, heven]

/-- undefinedLength written as a numeral. -/
theorem undefinedLength_val : undefinedLength = 4294967295 := rfl

/-- readExplicit evaluated on a stream whose next bytes declare the VR
UC, UR or UT with the 32-bit length field 0xFFFFFFFF: the undefined
length is rejected with the recorded error of the source. -/
theorem readExplicit_undefUCURUT (buf : List Nat) (pos limit : Nat) (bo : ByteOrder)
    (impl : IsImplicitVR) (ols : List Nat) (tag : Tag) (vrName : GoStr) (a b : Nat)
    (rest : List Nat)
    (hvr : vrName = gs "UC" ∨ vrName = gs "UR" ∨ vrName = gs "UT")
    (hdrop : buf.drop pos = vrName ++ a :: b :: 255 :: 255 :: 255 :: 255 :: rest)
    (hlim : pos + 8 ≤ limit) :
    readExplicit (Decoder.mk buf pos limit none bo impl ols) tag =
      (vrName, 0xffffffff,
        Decoder.mk buf (pos + 8) limit
          (some "UC, UR and UT may not have an Undefined Length") bo impl ols) := by
  have hlen2 : vrName.length = 2 := by
    rcases hvr with h | h | h <;> subst h <;> rfl
  have hlft : isLongFormVR vrName = true := by
    rcases hvr with h | h | h <;> subst h <;> rfl
  have hlenbuf : pos + 8 ≤ buf.length := by
    have := congrArg List.length hdrop
    simp [List.length_drop, hlen2] at this
    omega
  have s1 := Decoder.ReadBytes_ok buf pos limit none bo impl ols 2 (by omega) (by omega)
  have s2 := Decoder.ReadBytes_ok buf (pos + 2) limit none bo impl ols 2 (by omega) (by omega)
  have s3 := Decoder.ReadBytes_ok buf (pos + 4) limit none bo impl ols 4 (by omega) (by omega)
  have hd2 : buf.drop (pos + 2) = (buf.drop pos).drop 2 := by
    rw [List.drop_drop, Nat.add_comm]
  have hd4 : buf.drop (pos + 4) = (buf.drop pos).drop 4 := by
    rw [List.drop_drop, Nat.add_comm]
  have ht1 : (buf.drop pos).take 2 = vrName := by
    rw [hdrop, ← hlen2, List.take_left]
  have htail : (buf.drop pos).drop 2 = a :: b :: 255 :: 255 :: 255 :: 255 :: rest := by
    rw [hdrop, ← hlen2]
    exact List.drop_left vrName _
  have ht2 : (buf.drop (pos + 2)).take 2 = [a, b] := by
    rw [hd2, htail]; rfl
  have ht3 : (buf.drop (pos + 4)).take 4 = [255, 255, 255, 255] := by
    have h42 : ((buf.drop pos).drop 2).drop 2 = buf.drop (pos + 4) := by
      rw [hd4, List.drop_drop]
    rw [← h42, htail]; rfl
  have h22 : pos + 2 + 2 = pos + 4 := by omega
  have h44 : pos + 4 + 4 = pos + 8 := by omega
  unfold readExplicit
  simp only [Decoder.ReadString, Decoder.Skip, Decoder.ReadUInt32, s1, ht1, hlft, if_true,
    s2, ht2, h22, s3, ht3, h44, decode32_ffffffff]
  simp only [if_pos hvr, Decoder.SetError, undefinedLength_val, ne_eq, eq_self_iff_true,
    not_true, false_and, if_false]

/-- readTag evaluated on four available bytes. -/
theorem readTag_ok (buf : List Nat) (pos limit : Nat) (bo : ByteOrder)
    (impl : IsImplicitVR) (ols : List Nat) (t1 t2 t3 t4 : Nat) (rest : List Nat)
    (hdrop : buf.drop pos = t1 :: t2 :: t3 :: t4 :: rest)
    (hlim : pos + 4 ≤ limit) :
    readTag (Decoder.mk buf pos limit none bo impl ols) =
      (⟨decode16 bo [t1, t2], decode16 bo [t3, t4]⟩,
        Decoder.mk buf (pos + 4) limit none bo impl ols) := by
  have hlenbuf : pos + 4 ≤ buf.length := by
    have := congrArg List.length hdrop
    simp [List.length_drop] at this
    omega
  have s1 := Decoder.ReadBytes_ok buf pos limit none bo impl ols 2 (by omega) (by omega)
  have s2 := Decoder.ReadBytes_ok buf (pos + 2) limit none bo impl ols 2 (by omega) (by omega)
  have ht1 : (buf.drop pos).take 2 = [t1, t2] := by rw [hdrop]; rfl
  have ht2 : (buf.drop (pos + 2)).take 2 = [t3, t4] := by
    have hdd : buf.drop (pos + 2) = (buf.drop pos).drop 2 := by
      rw [List.drop_drop, Nat.add_comm]
    rw [hdd, hdrop]; rfl
  have h22 : pos + 2 + 2 = pos + 4 := by omega
  unfold readTag
  simp only [Decoder.ReadUInt16, s1, ht1, s2, ht2, h22]

/-- PushLimit evaluated when the new limit fits under the current one. -/
theorem PushLimit_ok (buf : List Nat) (pos limit : Nat) (err : Option String)
    (bo : ByteOrder) (impl : IsImplicitVR) (ols : List Nat) (n : Nat)
    (h : pos + n ≤ limit) :
    (Decoder.mk buf pos limit err bo impl ols).PushLimit n =
      Decoder.mk buf pos (pos + n) err bo impl (limit :: ols) := by
  have hc : ¬ ((Decoder.mk buf pos limit err bo impl ols).limit <
      (Decoder.mk buf pos limit err bo impl ols).pos + n) := by
    show ¬ (limit < pos + n)
    omega
  unfold Decoder.PushLimit
  rw [if_neg hc]

/-- Unfolding of ReadElement at positive fuel, in projection form. -/
theorem ReadElement_succ (fuel : Nat) (d : Decoder) (options : ReadOptions) :
    ReadElement (fuel + 1) d options =
      if (readTag d).1 = TagPixelData ∧ options.DropPixelData then (none, (readTag d).2)
      else readElementAfterTag fuel (readTag d).2 options (readTag d).1 := rfl

/-- Unfolding of readElementAfterTag at positive fuel, in projection
form. -/
theorem readElementAfterTag_succ (fuel : Nat) (d : Decoder) (options : ReadOptions)
    (tag : Tag) :
    readElementAfterTag (fuel + 1) d options tag =
      (if ((if (if tag.group = itemSeqGroup then IsImplicitVR.ImplicitVR else d.implicit)
              = .ImplicitVR then readImplicit d tag else readExplicit d tag)).2.2.err ≠ none then
        (none,
          ((if (if tag.group = itemSeqGroup then IsImplicitVR.ImplicitVR else d.implicit)
              = .ImplicitVR then readImplicit d tag else readExplicit d tag)).2.2)
      else
        readElementDispatch fuel
          ((if (if tag.group = itemSeqGroup then IsImplicitVR.ImplicitVR else d.implicit)
              = .ImplicitVR then readImplicit d tag else readExplicit d tag)).2.2 options tag
          ((if (if tag.group = itemSeqGroup then IsImplicitVR.ImplicitVR else d.implicit)
              = .ImplicitVR then readImplicit d tag else readExplicit d tag)).1
          ((if (if tag.group = itemSeqGroup then IsImplicitVR.ImplicitVR else d.implicit)
              = .ImplicitVR then readImplicit d tag else readExplicit d tag)).2.1) := rfl

/-- Unfolding of readElementDispatch at positive fuel, in projection
form. -/
theorem readElementDispatch_succ (fuel : Nat) (d : Decoder) (options : ReadOptions)
    (tag : Tag) (vr : GoStr) (vl : Nat) :
    readElementDispatch (fuel + 1) d options tag vr vl =
      (if tag = TagPixelData then
        if vl = undefinedLength then
          (some (.mk tag vr (decide (vl = undefinedLength))
            [.vPixelData ⟨(readBasicOffsetTable d).1,
              (readPixelFrames fuel (readBasicOffsetTable d).2).1⟩]),
            (readPixelFrames fuel (readBasicOffsetTable d).2).2)
        else
          (some (.mk tag vr (decide (vl = undefinedLength))
            [.vPixelData ⟨[], [(d.ReadBytes vl).1]⟩]), (d.ReadBytes vl).2)
      else if vr = gs "SQ" then
        if vl = undefinedLength then
          (some (.mk tag vr (decide (vl = undefinedLength))
            (readSQUndefItems fuel d options).1), (readSQUndefItems fuel d options).2)
        else
          (some (.mk tag vr (decide (vl = undefinedLength))
            (readSQDefItems fuel (d.PushLimit vl) options).1),
            (readSQDefItems fuel (d.PushLimit vl) options).2.PopLimit)
      else if tag = TagItem then
        if vl = undefinedLength then
          (some (.mk tag vr (decide (vl = undefinedLength))
            (readItemUndefElems fuel d options).1), (readItemUndefElems fuel d options).2)
        else
          (some (.mk tag vr (decide (vl = undefinedLength))
            (readItemDefElems fuel (d.PushLimit vl) options).1),
            (readItemDefElems fuel (d.PushLimit vl) options).2.PopLimit)
      else
        if vl = undefinedLength then
          (none, d.SetError "Undefined length disallowed for this VR")
        else
          (some (.mk tag vr (decide (vl = undefinedLength))
            (readScalarData fuel (d.PushLimit vl) vr vl).1),
            (readScalarData fuel (d.PushLimit vl) vr vl).2.PopLimit)) := rfl

/-- Evaluation bridge for ReadElement on an explicit-VR element whose
header reads cleanly: the element is handed to the payload dispatcher
with the stream VR and VL. -/
theorem ReadElement_to_dispatch (fuel : Nat) (d d1 d2 : Decoder) (options : ReadOptions)
    (tag : Tag) (vr : GoStr) (vl : Nat)
    (htag : readTag d = (tag, d1))
    (hdrop : ¬(tag = TagPixelData ∧ options.DropPixelData))
    (hgrp : tag.group ≠ itemSeqGroup)
    (himpl : d1.implicit = .ExplicitVR)
    (hexp : readExplicit d1 tag = (vr, vl, d2))
    (herr : d2.err = none) :
    ReadElement (fuel + 3) d options = readElementDispatch (fuel + 1) d2 options tag vr vl := by
  rw [show fuel + 3 = (fuel + 2) + 1 from rfl, ReadElement_succ, htag]
  rw [show ((tag, d1) : Tag × Decoder).1 = tag from rfl,
    show ((tag, d1) : Tag × Decoder).2 = d1 from rfl]
  rw [if_neg hdrop]
  rw [show fuel + 2 = (fuel + 1) + 1 from rfl, readElementAfterTag_succ]
  rw [if_neg hgrp, himpl]
  rw [if_neg (show ¬(IsImplicitVR.ExplicitVR = IsImplicitVR.ImplicitVR) from by decide)]
  rw [hexp]
  rw [show ((vr, vl, d2) : GoStr × Nat × Decoder).2.2 = d2 from rfl,
    show ((vr, vl, d2) : GoStr × Nat × Decoder).1 = vr from rfl,
    show ((vr, vl, d2) : GoStr × Nat × Decoder).2.1 = vl from rfl]
  rw [if_neg (show ¬(d2.err ≠ none) from by simp [herr])]

/-- Evaluation bridge for ReadElement on an explicit-VR element whose
header read records an error: the read aborts with none. -/
theorem ReadElement_header_error (fuel : Nat) (d d1 d2 : Decoder) (options : ReadOptions)
    (tag : Tag) (vr : GoStr) (vl : Nat)
    (htag : readTag d = (tag, d1))
    (hdrop : ¬(tag = TagPixelData ∧ options.DropPixelData))
    (hgrp : tag.group ≠ itemSeqGroup)
    (himpl : d1.implicit = .ExplicitVR)
    (hexp : readExplicit d1 tag = (vr, vl, d2))
    (herr : d2.err ≠ none) :
    ReadElement (fuel + 3) d options = (none, d2) := by
  rw [show fuel + 3 = (fuel + 2) + 1 from rfl, ReadElement_succ, htag]
  rw [show ((tag, d1) : Tag × Decoder).1 = tag from rfl,
    show ((tag, d1) : Tag × Decoder).2 = d1 from rfl]
  rw [if_neg hdrop]
  rw [show fuel + 2 = (fuel + 1) + 1 from rfl, readElementAfterTag_succ]
  rw [if_neg hgrp, himpl]
  rw [if_neg (show ¬(IsImplicitVR.ExplicitVR = IsImplicitVR.ImplicitVR) from by decide)]
  rw [hexp]
  rw [show ((vr, vl, d2) : GoStr × Nat × Decoder).2.2 = d2 from rfl]
  rw [if_pos herr]

/-- readElementDispatch on a defined-length scalar element reduces to
the scalar payload reader under the pushed limit. -/
theorem dispatch_scalar (fuel : Nat) (d : Decoder) (options : ReadOptions)
    (tag : Tag) (vr : GoStr) (vl : Nat)
    (hpx : tag ≠ TagPixelData) (hsq : vr ≠ gs "SQ") (hitem : tag ≠ TagItem)
    (hvl : vl ≠ undefinedLength) :
    readElementDispatch (fuel + 1) d options tag vr vl =
      (some (.mk tag vr (decide (vl = undefinedLength))
        (readScalarData fuel (d.PushLimit vl) vr vl).1),
        (readScalarData fuel (d.PushLimit vl) vr vl).2.PopLimit) := by
  rw [readElementDispatch_succ, if_neg hpx, if_neg hsq, if_neg hitem, if_neg hvl]

/-- readScalarData on a VR handled by the generic string branch: the
payload bytes are read, trimmed and split on backslashes. -/
theorem readScalarData_default (fuel : Nat) (d : Decoder) (vr : GoStr) (vl : Nat)
    (h1 : vr ≠ gs "DA") (h2 : vr ≠ gs "AT") (h3 : vr ≠ gs "OW") (h4 : vr ≠ gs "OB")
    (h5 : ¬(vr = gs "LT" ∨ vr = gs "UT")) (h6 : vr ≠ gs "UL") (h7 : vr ≠ gs "SL")
    (h8 : vr ≠ gs "US") (h9 : vr ≠ gs "SS") (h10 : vr ≠ gs "FL") (h11 : vr ≠ gs "FD") :
    readScalarData fuel d vr vl =
      (if (goTrim (d.ReadString vl).1).length > 0 then
        (goSplitBackslash (goTrim (d.ReadString vl).1)).map .vStr else [],
        (d.ReadString vl).2) := by
  unfold readScalarData
  rw [if_neg h1, if_neg h2, if_neg h3, if_neg h4, if_neg h5, if_neg h6, if_neg h7,
    if_neg h8, if_neg h9, if_neg h10, if_neg h11]

/-- readScalarData on the UL branch reduces to the uint32 loop. -/
theorem readScalarData_UL (fuel : Nat) (d : Decoder) (vl : Nat) :
    readScalarData fuel d (gs "UL") vl = readUInt32Loop fuel d := by
  unfold readScalarData
  rw [if_neg (by decide), if_neg (by decide), if_neg (by decide), if_neg (by decide),
    if_neg (by decide), if_pos rfl]

/-- Unfolding of readUInt32Loop at positive fuel, in projection form. -/
theorem readUInt32Loop_succ (fuel : Nat) (d : Decoder) :
    readUInt32Loop (fuel + 1) d =
      (if d.Len > 0 ∧ d.err = none then
        (DValue.vU32 (d.ReadUInt32).1 :: (readUInt32Loop fuel (d.ReadUInt32).2).1,
          (readUInt32Loop fuel (d.ReadUInt32).2).2)
      else ([], d)) := rfl

/-- readUInt32Loop stops when no bytes remain or an error is recorded,
at any fuel. -/
theorem readUInt32Loop_stop (fuel : Nat) (d : Decoder)
    (h : ¬(d.Len > 0 ∧ d.err = none)) : readUInt32Loop fuel d = ([], d) := by
  cases fuel with
  | zero => rfl
  | succ fuel => rw [readUInt32Loop_succ, if_neg h]

end Dicom

namespace Dicom

/-- Odd-length protocol check: when the parsed VL is defined and odd,
the checked decoder carries an error. -/
theorem oddCheck_err (vl1 : Nat) (dX : Decoder) (msg : String)
    (ha : vl1 ≠ undefinedLength) (hb : vl1 % 2 = 1) :
    (if vl1 ≠ undefinedLength ∧ vl1 % 2 ≠ 0 then dX.SetError msg else dX).err ≠ none := by
  rw [if_pos ⟨ha, by omega⟩]
  exact Decoder.SetError_err_ne_none _ _

/-- C4 -/
theorem c4_odd_defined_vl_is_protocol_error (d : Decoder) (tag : Tag) :
    ((readImplicit d tag).2.1 ≠ undefinedLength → (readImplicit d tag).2.1 % 2 = 1 →
      (readImplicit d tag).2.2.err ≠ none) ∧
    ((readExplicit d tag).2.1 ≠ undefinedLength → (readExplicit d tag).2.1 % 2 = 1 →
      (readExplicit d tag).2.2.err ≠ none) := by
  constructor
  · rcases hr : d.ReadUInt32 with ⟨vl0, d0⟩
    by_cases hv : vl0 = 0xffffffff
    · simp only [readImplicit, hr, hv, eq_self_iff_true, if_true]
      intro ha _
      exact absurd rfl ha
    · simp only [readImplicit, hr, if_neg hv]
      intro ha hb
      exact oddCheck_err _ _ _ ha hb
  · rcases hs : d.ReadString 2 with ⟨vr0, d1⟩
    cases hlf : isLongFormVR vr0
    · rcases hr : d1.ReadUInt16 with ⟨vl16, d2⟩
      by_cases hv : vl16 = 0xffff
      · simp only [readExplicit, hs, hlf, Bool.false_eq_true, if_false, hr, hv,
          eq_self_iff_true, if_true]
        intro ha _
        exact absurd rfl ha
      · simp only [readExplicit, hs, hlf, Bool.false_eq_true, if_false, hr, if_neg hv]
        intro ha hb
        exact oddCheck_err _ _ _ ha hb
    · rcases hr : (d1.Skip 2).ReadUInt32 with ⟨vl0, d2⟩
      by_cases hv : vl0 = 0xffffffff
      · by_cases hu : vr0 = gs "UC" ∨ vr0 = gs "UR" ∨ vr0 = gs "UT"
        · simp only [readExplicit, hs, hlf, if_true, hr, hv, eq_self_iff_true, if_pos hu]
          intro _ _
          split_ifs
          · exact Decoder.SetError_err_ne_none _ _
          · exact Decoder.SetError_err_ne_none _ _
        · simp only [readExplicit, hs, hlf, if_true, hr, hv, eq_self_iff_true, if_true,
            if_neg hu]
          intro ha _
          exact absurd rfl ha
      · simp only [readExplicit, hs, hlf, if_true, hr, if_neg hv]
        intro ha hb
        exact oddCheck_err _ _ _ ha hb

theorem c4_witness :
    (readImplicit (NewBytesDecoder [3, 0, 0, 0] .littleEndian .ImplicitVR) ⟨8, 0⟩).2.2.err
      ≠ none ∧
    (readExplicit (NewBytesDecoder (gs "AE" ++ [3, 0, 0]) .littleEndian .ExplicitVR)
      ⟨8, 0⟩).2.2.err ≠ none :=
  ⟨(c4_odd_defined_vl_is_protocol_error _ _).1 (by decide) (by decide),
    (c4_odd_defined_vl_is_protocol_error _ _).2 (by decide) (by decide)⟩

end Dicom

namespace Dicom

/-- C5 -/
theorem c5_undef_length_error_for_UC_UR_UT (d : Decoder) (tag : Tag)
    (vr0 : GoStr) (d1 d2 : Decoder)
    (hs : d.ReadString 2 = (vr0, d1))
    (hu : vr0 = gs "UC" ∨ vr0 = gs "UR" ∨ vr0 = gs "UT")
    (hr : (d1.Skip 2).ReadUInt32 = (0xffffffff, d2)) :
    (readExplicit d tag).2.2.err ≠ none := by
  have hlf : isLongFormVR vr0 = true := by
    rcases hu with h | h | h <;> subst h <;> decide
  simp only [readExplicit, hs, hlf, if_true, hr, eq_self_iff_true, if_true, if_pos hu]
  split_ifs
  · exact Decoder.SetError_err_ne_none _ _
  · exact Decoder.SetError_err_ne_none _ _

theorem c5_witness :
    (readExplicit (NewBytesDecoder (gs "UT" ++ [0, 0, 0xff, 0xff, 0xff, 0xff])
      .littleEndian .ExplicitVR) ⟨8, 0⟩).2.2.err ≠ none :=
  c5_undef_length_error_for_UC_UR_UT _ ⟨8, 0⟩ _ _ _ rfl (by decide) rfl

end Dicom

namespace Dicom

/-- C10 -/
theorem c10_short_form_ffff_becomes_undefined_and_is_rejected
    (fuel : Nat) (buf : List Nat) (pos limit : Nat) (bo : ByteOrder) (ols : List Nat)
    (options : ReadOptions) (tag : Tag) (t1 t2 t3 t4 a b : Nat) (rest : List Nat)
    (htagv : tag = ⟨decode16 bo [t1, t2], decode16 bo [t3, t4]⟩)
    (hdrop : buf.drop pos = t1 :: t2 :: t3 :: t4 :: a :: b :: 255 :: 255 :: rest)
    (hlim : pos + 8 ≤ limit)
    (hlf : isLongFormVR [a, b] = false)
    (hpx : tag ≠ TagPixelData)
    (hgrp : tag.group ≠ itemSeqGroup)
    (hsq : ([a, b] : GoStr) ≠ gs "SQ")
    (hitem : tag ≠ TagItem) :
    readExplicit (Decoder.mk buf (pos + 4) limit none bo .ExplicitVR ols) tag =
      ([a, b], undefinedLength,
        Decoder.mk buf (pos + 8) limit none bo .ExplicitVR ols) ∧
    ReadElement (fuel + 3) (Decoder.mk buf pos limit none bo .ExplicitVR ols) options =
      (none, Decoder.mk buf (pos + 8) limit
        (some "Undefined length disallowed for this VR") bo .ExplicitVR ols) := by
  have hdrop4 : buf.drop (pos + 4) = a :: b :: 255 :: 255 :: rest := by
    have hd4 : buf.drop (pos + 4) = (buf.drop pos).drop 4 := by
      rw [List.drop_drop, Nat.add_comm]
    rw [hd4, hdrop]; rfl
  have hexp := readExplicit_short_sentinel buf (pos + 4) limit bo .ExplicitVR ols tag a b
    rest hlf hdrop4 (by omega)
  rw [show pos + 4 + 4 = pos + 8 from by omega] at hexp
  refine ⟨hexp, ?_⟩
  have htag := readTag_ok buf pos limit bo .ExplicitVR ols t1 t2 t3 t4
    (a :: b :: 255 :: 255 :: rest) hdrop (by omega)
  rw [← htagv] at htag
  rw [ReadElement_to_dispatch fuel _ _ _ options tag [a, b] undefinedLength htag
    (fun hc => hpx hc.1) hgrp rfl hexp rfl]
  rw [readElementDispatch_succ, if_neg hpx, if_neg hsq, if_neg hitem, if_pos rfl]
  rfl

theorem c10_witness :
    readExplicit
        (Decoder.mk ([16, 0, 16, 0] ++ gs "DS" ++ [255, 255]) 4 8 none .littleEndian
          .ExplicitVR []) ⟨16, 16⟩ =
      (gs "DS", undefinedLength,
        Decoder.mk ([16, 0, 16, 0] ++ gs "DS" ++ [255, 255]) 8 8 none .littleEndian
          .ExplicitVR []) ∧
    ReadElement 3
        (Decoder.mk ([16, 0, 16, 0] ++ gs "DS" ++ [255, 255]) 0 8 none .littleEndian
          .ExplicitVR []) ⟨false⟩ =
      (none, Decoder.mk ([16, 0, 16, 0] ++ gs "DS" ++ [255, 255]) 8 8
        (some "Undefined length disallowed for this VR") .littleEndian .ExplicitVR []) :=
  c10_short_form_ffff_becomes_undefined_and_is_rejected 0
    ([16, 0, 16, 0] ++ gs "DS" ++ [255, 255]) 0 8 .littleEndian [] ⟨false⟩ ⟨16, 16⟩
    16 0 16 0 68 83 [] (by decide) rfl (by decide) (by decide) (by decide) (by decide)
    (by decide) (by decide)

end Dicom

namespace Dicom

/-- C3 -/
theorem c3_stream_vr_read_without_dictionary_check
    (buf : List Nat) (pos limit : Nat) (bo : ByteOrder)
    (impl : IsImplicitVR) (ols : List Nat) (tag : Tag) (info : TagInfo)
    (a b l1 l2 : Nat) (rest : List Nat)
    (hfind : FindTag tag = .ok info)
    (hkind : GetVRKind tag info.VR ≠ GetVRKind tag [a, b])
    (hlf : isLongFormVR [a, b] = false)
    (hdrop : buf.drop pos = a :: b :: l1 :: l2 :: rest)
    (hlim : pos + 4 ≤ limit)
    (hl1 : l1 < 256) (hl2 : l2 < 256)
    (hne : decode16 bo [l1, l2] ≠ 0xffff) (heven : decode16 bo [l1, l2] % 2 = 0) :
    readExplicit (Decoder.mk buf pos limit none bo impl ols) tag =
      ([a, b], decode16 bo [l1, l2],
        Decoder.mk buf (pos + 4) limit none bo impl ols) :=
  readExplicit_short_defined buf pos limit bo impl ols tag a b l1 l2 rest hlf hdrop hlim
    hl1 hl2 hne heven

theorem c3_witness :
    FindTag ⟨0, 0x1002⟩ = .ok ⟨⟨0, 0x1002⟩, gs "US", "EventTypeID", "1"⟩ ∧
    readExplicit (Decoder.mk (gs "UL" ++ [4, 0]) 0 6 none .littleEndian .ExplicitVR [])
        ⟨0, 0x1002⟩ =
      (gs "UL", 4, Decoder.mk (gs "UL" ++ [4, 0]) 4 6 none .littleEndian .ExplicitVR []) :=
  ⟨rfl, c3_stream_vr_read_without_dictionary_check (gs "UL" ++ [4, 0]) 0 6 .littleEndian
    .ExplicitVR [] ⟨0, 0x1002⟩ ⟨⟨0, 0x1002⟩, gs "US", "EventTypeID", "1"⟩ 85 76 4 0 []
    rfl (by decide) (by decide) rfl (by decide) (by decide) (by decide) (by decide)
    (by decide)⟩

theorem c3_counterexample :
    GetVRKind ⟨0, 0x1002⟩ (gs "US") ≠ GetVRKind ⟨0, 0x1002⟩ (gs "UL") ∧
    FindTag ⟨0, 0x1002⟩ = .ok ⟨⟨0, 0x1002⟩, gs "US", "EventTypeID", "1"⟩ ∧
    (ReadElement 10 (NewBytesDecoder ([0, 0, 2, 16] ++ gs "UL" ++ [4, 0] ++ [1, 0, 0, 0])
        .littleEndian .ExplicitVR) ⟨false⟩).1 =
      some (.mk ⟨0, 0x1002⟩ (gs "UL") false [.vU32 1]) ∧
    (ReadElement 10 (NewBytesDecoder ([0, 0, 2, 16] ++ gs "UL" ++ [4, 0] ++ [1, 0, 0, 0])
        .littleEndian .ExplicitVR) ⟨false⟩).2.err = none :=
  ⟨by decide, rfl, rfl, rfl⟩

end Dicom

namespace Dicom

/-- Modelled from the spec's words, for comparison with the source's
goTrim: trimming only trailing spaces and NUL bytes. -/
def specTrimTrailing (l : GoStr) : GoStr :=
  (l.reverse.dropWhile isTrimByte).reverse

/-- C6 -/
theorem c6_string_scalar_trims_both_ends_and_splits
    (fuel : Nat) (buf : List Nat) (pos limit : Nat) (bo : ByteOrder) (ols : List Nat)
    (options : ReadOptions) (tag : Tag) (t1 t2 t3 t4 a b l1 l2 vl : Nat) (rest : List Nat)
    (htagv : tag = ⟨decode16 bo [t1, t2], decode16 bo [t3, t4]⟩)
    (hdrop : buf.drop pos = t1 :: t2 :: t3 :: t4 :: a :: b :: l1 :: l2 :: rest)
    (hlf : isLongFormVR [a, b] = false)
    (hl1 : l1 < 256) (hl2 : l2 < 256)
    (hvl : decode16 bo [l1, l2] = vl)
    (hne : vl ≠ 0xffff) (heven : vl % 2 = 0)
    (hlimvl : pos + 8 + vl ≤ limit) (hbuf : pos + 8 + vl ≤ buf.length)
    (hpx : tag ≠ TagPixelData) (hgrp : tag.group ≠ itemSeqGroup) (hitem : tag ≠ TagItem)
    (h1 : ([a, b] : GoStr) ≠ gs "DA") (h2 : ([a, b] : GoStr) ≠ gs "AT")
    (h3 : ([a, b] : GoStr) ≠ gs "OW") (h4 : ([a, b] : GoStr) ≠ gs "OB")
    (h5 : ¬(([a, b] : GoStr) = gs "LT" ∨ ([a, b] : GoStr) = gs "UT"))
    (h6 : ([a, b] : GoStr) ≠ gs "UL") (h7 : ([a, b] : GoStr) ≠ gs "SL")
    (h8 : ([a, b] : GoStr) ≠ gs "US") (h9 : ([a, b] : GoStr) ≠ gs "SS")
    (h10 : ([a, b] : GoStr) ≠ gs "FL") (h11 : ([a, b] : GoStr) ≠ gs "FD")
    (hsq : ([a, b] : GoStr) ≠ gs "SQ") :
    ReadElement (fuel + 3) (Decoder.mk buf pos limit none bo .ExplicitVR ols) options =
      (some (.mk tag [a, b] false
        (if (goTrim ((buf.drop (pos + 8)).take vl)).length > 0 then
          (goSplitBackslash (goTrim ((buf.drop (pos + 8)).take vl))).map DValue.vStr
        else [])),
        Decoder.mk buf (pos + 8 + vl) limit none bo .ExplicitVR ols) := by
  have hvlsmall : vl < 2 ^ 16 := by
    rw [← hvl]; cases bo <;> simp [decode16] <;> omega
  have hvlne : vl ≠ undefinedLength := by
    rw [undefinedLength_val]; omega
  have hdrop4 : buf.drop (pos + 4) = a :: b :: l1 :: l2 :: rest := by
    have hd4 : buf.drop (pos + 4) = (buf.drop pos).drop 4 := by
      rw [List.drop_drop, Nat.add_comm]
    rw [hd4, hdrop]; rfl
  have htag := readTag_ok buf pos limit bo .ExplicitVR ols t1 t2 t3 t4
    (a :: b :: l1 :: l2 :: rest) hdrop (by omega)
  rw [← htagv] at htag
  have hexp := readExplicit_short_defined buf (pos + 4) limit bo .ExplicitVR ols tag a b
    l1 l2 rest hlf hdrop4 (by omega) hl1 hl2 (by rw [hvl]; exact hne)
    (by rw [hvl]; exact heven)
  rw [hvl, show pos + 4 + 4 = pos + 8 from by omega] at hexp
  rw [ReadElement_to_dispatch fuel _ _ _ options tag [a, b] vl htag
    (fun hc => hpx hc.1) hgrp rfl hexp rfl]
  rw [dispatch_scalar fuel _ options tag [a, b] vl hpx hsq hitem hvlne]
  rw [PushLimit_ok buf (pos + 8) limit none bo .ExplicitVR ols vl (by omega)]
  rw [readScalarData_default fuel _ [a, b] vl h1 h2 h3 h4 h5 h6 h7 h8 h9 h10 h11]
  have hrs := Decoder.ReadBytes_ok buf (pos + 8) (pos + 8 + vl) none bo .ExplicitVR
    (limit :: ols) vl (Nat.le_refl _) hbuf
  simp only [Decoder.ReadString, hrs, Decoder.PopLimit, decide_eq_false hvlne]

theorem c6_witness :
    ReadElement 3
        (Decoder.mk ([16, 0, 16, 0] ++ gs "SH" ++ [4, 0] ++ [32, 65, 66, 0]) 0 12 none
          .littleEndian .ExplicitVR []) ⟨false⟩ =
      (some (.mk ⟨16, 16⟩ (gs "SH") false [.vStr [65, 66]]),
        Decoder.mk ([16, 0, 16, 0] ++ gs "SH" ++ [4, 0] ++ [32, 65, 66, 0]) 12 12 none
          .littleEndian .ExplicitVR []) := by
  have h := c6_string_scalar_trims_both_ends_and_splits 0
    ([16, 0, 16, 0] ++ gs "SH" ++ [4, 0] ++ [32, 65, 66, 0]) 0 12 .littleEndian []
    ⟨false⟩ ⟨16, 16⟩ 16 0 16 0 83 72 4 0 4 [32, 65, 66, 0] (by decide) (by decide)
    (by decide) (by decide) (by decide) (by decide) (by decide) (by decide) (by decide)
    (by decide) (by decide) (by decide) (by decide) (by decide) (by decide) (by decide)
    (by decide) (by decide) (by decide) (by decide) (by decide) (by decide) (by decide)
    (by decide) (by decide)
  exact h

theorem c6_counterexample :
    ((ReadElement 10 (NewBytesDecoder ([16, 0, 16, 0] ++ gs "SH" ++ [4, 0] ++ [32, 65, 66, 0])
        .littleEndian .ExplicitVR) ⟨false⟩).1.map Element.GetStrings) =
      some (.ok [[65, 66]]) ∧
    specTrimTrailing [32, 65, 66, 0] = [32, 65, 66] ∧
    goTrim [32, 65, 66, 0] = [65, 66] ∧
    ([[65, 66]] : List GoStr) ≠ goSplitBackslash (specTrimTrailing [32, 65, 66, 0]) :=
  ⟨rfl, rfl, rfl, by decide⟩

end Dicom

namespace Dicom

/-- C2 -/
theorem c2_effective_vr_resolution (tag : Tag) (vr : GoStr) :
    (∀ entry, FindTag tag = .ok entry → vr = [] →
      resolveWriteVR tag vr = .ok entry.VR) ∧
    (∀ msg, FindTag tag = .error msg → vr = [] →
      resolveWriteVR tag vr = .ok (gs "UN")) ∧
    (∀ msg, FindTag tag = .error msg → vr ≠ [] →
      resolveWriteVR tag vr = .ok vr) ∧
    (∀ entry, FindTag tag = .ok entry → vr ≠ [] → entry.VR = vr →
      resolveWriteVR tag vr = .ok vr) ∧
    (∀ entry, FindTag tag = .ok entry → vr ≠ [] → entry.VR ≠ vr →
      GetVRKind tag entry.VR = GetVRKind tag vr →
      resolveWriteVR tag vr = .ok vr) ∧
    (∀ entry, FindTag tag = .ok entry → vr ≠ [] → entry.VR ≠ vr →
      GetVRKind tag entry.VR ≠ GetVRKind tag vr →
      resolveWriteVR tag vr =
        .error "VR value mismatch for tag: element VR differs in kind from the DICOM standard VR" ∧
      ∀ e undef values, WriteElement e (.mk tag vr undef values) =
        e.SetError
          "VR value mismatch for tag: element VR differs in kind from the DICOM standard VR") := by
  have hred : ∀ entry, FindTag tag = .ok entry → vr ≠ [] →
      resolveWriteVR tag vr =
        (if entry.VR ≠ vr then
          (if GetVRKind tag entry.VR ≠ GetVRKind tag vr then
            Except.error
              "VR value mismatch for tag: element VR differs in kind from the DICOM standard VR"
          else Except.ok vr)
        else Except.ok vr) := by
    intro entry hfind hvr
    unfold resolveWriteVR
    rw [hfind]
    show (if vr = [] then Except.ok entry.VR
      else if entry.VR ≠ vr then
        (if GetVRKind tag entry.VR ≠ GetVRKind tag vr then
          Except.error
            "VR value mismatch for tag: element VR differs in kind from the DICOM standard VR"
        else Except.ok vr)
      else Except.ok vr) = _
    rw [if_neg hvr]
  refine ⟨?_, ?_, ?_, ?_, ?_, ?_⟩
  · intro entry hfind hvr
    subst hvr
    unfold resolveWriteVR
    rw [hfind]
    rfl
  · intro msg hfind hvr
    subst hvr
    unfold resolveWriteVR
    rw [hfind]
    rfl
  · intro msg hfind hvr
    unfold resolveWriteVR
    rw [hfind]
    show (if vr = [] then Except.ok (gs "UN") else Except.ok vr) = _
    rw [if_neg hvr]
  · intro entry hfind hvr heq
    rw [hred entry hfind hvr, if_neg (show ¬(entry.VR ≠ vr) from by simp [heq])]
  · intro entry hfind hvr hne hkind
    rw [hred entry hfind hvr, if_pos hne, if_neg (show ¬(GetVRKind tag entry.VR ≠
      GetVRKind tag vr) from by simp [hkind])]
  · intro entry hfind hvr hne hkind
    have hres : resolveWriteVR tag vr =
        .error "VR value mismatch for tag: element VR differs in kind from the DICOM standard VR" := by
      rw [hred entry hfind hvr, if_pos hne, if_pos hkind]
    refine ⟨hres, ?_⟩
    intro e undef values
    simp only [WriteElement, hres]

theorem c2_witness :
    FindTag ⟨0, 0x1002⟩ = .ok ⟨⟨0, 0x1002⟩, gs "US", "EventTypeID", "1"⟩ ∧
    resolveWriteVR ⟨0, 0x1002⟩ [] = .ok (gs "US") ∧
    resolveWriteVR ⟨0x9999, 1⟩ [] = .ok (gs "UN") ∧
    resolveWriteVR ⟨0x9999, 1⟩ (gs "DS") = .ok (gs "DS") ∧
    resolveWriteVR ⟨0, 0x1002⟩ (gs "US") = .ok (gs "US") ∧
    resolveWriteVR ⟨0x10, 0x10⟩ (gs "SH") = .ok (gs "SH") ∧
    resolveWriteVR ⟨0, 0x1002⟩ (gs "UL") =
      .error "VR value mismatch for tag: element VR differs in kind from the DICOM standard VR" ∧
    WriteElement (NewBytesEncoder .littleEndian .ExplicitVR)
        (.mk ⟨0, 0x1002⟩ (gs "UL") false []) =
      (NewBytesEncoder .littleEndian .ExplicitVR).SetError
        "VR value mismatch for tag: element VR differs in kind from the DICOM standard VR" :=
  ⟨rfl,
    (c2_effective_vr_resolution ⟨0, 0x1002⟩ []).1 ⟨⟨0, 0x1002⟩, gs "US", "EventTypeID", "1"⟩
      rfl rfl,
    (c2_effective_vr_resolution ⟨0x9999, 1⟩ []).2.1 "Could not find tag in dictionary"
      rfl rfl,
    (c2_effective_vr_resolution ⟨0x9999, 1⟩ (gs "DS")).2.2.1 "Could not find tag in dictionary"
      rfl (by decide),
    (c2_effective_vr_resolution ⟨0, 0x1002⟩ (gs "US")).2.2.2.1
      ⟨⟨0, 0x1002⟩, gs "US", "EventTypeID", "1"⟩ rfl (by decide) rfl,
    (c2_effective_vr_resolution ⟨0x10, 0x10⟩ (gs "SH")).2.2.2.2.1
      ⟨⟨0x10, 0x10⟩, gs "PN", "PatientName", "1"⟩ rfl (by decide) (by decide) (by decide),
    ((c2_effective_vr_resolution ⟨0, 0x1002⟩ (gs "UL")).2.2.2.2.2
      ⟨⟨0, 0x1002⟩, gs "US", "EventTypeID", "1"⟩ rfl (by decide) (by decide) (by decide)).1,
    ((c2_effective_vr_resolution ⟨0, 0x1002⟩ (gs "UL")).2.2.2.2.2
      ⟨⟨0, 0x1002⟩, gs "US", "EventTypeID", "1"⟩ rfl (by decide) (by decide) (by decide)).2
      (NewBytesEncoder .littleEndian .ExplicitVR) false []⟩

end Dicom

namespace Dicom

/-- C7 -/
theorem c7_parse_transfer_syntax :
    ParseTransferSyntaxUID "1.2.840.10008.1.2" = .ok (.littleEndian, .ImplicitVR) ∧
    ParseTransferSyntaxUID "1.2.840.10008.1.2.1" = .ok (.littleEndian, .ExplicitVR) ∧
    ParseTransferSyntaxUID "1.2.840.10008.1.2.1.99" = .ok (.littleEndian, .ExplicitVR) ∧
    ParseTransferSyntaxUID "1.2.840.10008.1.2.2" = .ok (.bigEndian, .ExplicitVR) ∧
    (∀ uid info, LookupUID uid = .ok info → info.typ ≠ UIDTypeTransferSyntax →
      ParseTransferSyntaxUID uid = .error "UID is not a transfer syntax") ∧
    (∀ uid info, LookupUID uid = .ok info → info.typ = UIDTypeTransferSyntax →
      ¬(uid = ImplicitVRLittleEndian ∨ uid = ExplicitVRLittleEndian ∨
        uid = ExplicitVRBigEndian ∨ uid = DeflatedExplicitVRLittleEndian) →
      ParseTransferSyntaxUID uid = .ok (.littleEndian, .ExplicitVR)) := by
  refine ⟨rfl, rfl, rfl, rfl, ?_, ?_⟩
  · intro uid info hfind hne
    by_cases h4 : uid = ImplicitVRLittleEndian ∨ uid = ExplicitVRLittleEndian ∨
        uid = ExplicitVRBigEndian ∨ uid = DeflatedExplicitVRLittleEndian
    · exfalso
      rcases h4 with h | h | h | h <;> subst h <;>
        (injection hfind with h2; exact hne (by rw [← h2]))
    · have hCanon : CanonicalTransferSyntaxUID uid = .error "UID is not a transfer syntax" := by
        unfold CanonicalTransferSyntaxUID
        rw [if_neg h4, hfind]
        show (if info.typ ≠ UIDTypeTransferSyntax then
            (Except.error "UID is not a transfer syntax" : Except String String)
          else .ok ExplicitVRLittleEndian) = _
        rw [if_pos hne]
      unfold ParseTransferSyntaxUID
      rw [hCanon]
  · intro uid info hfind htyp h4
    have hCanon : CanonicalTransferSyntaxUID uid = .ok ExplicitVRLittleEndian := by
      unfold CanonicalTransferSyntaxUID
      rw [if_neg h4, hfind]
      show (if info.typ ≠ UIDTypeTransferSyntax then
          (Except.error "UID is not a transfer syntax" : Except String String)
        else .ok ExplicitVRLittleEndian) = _
      rw [if_neg (show ¬(info.typ ≠ UIDTypeTransferSyntax) from by simp [htyp])]
    unfold ParseTransferSyntaxUID
    rw [hCanon]
    rfl

theorem c7_witness :
    ParseTransferSyntaxUID "1.2.840.10008.15.0.4.8" = .error "UID is not a transfer syntax" ∧
    ParseTransferSyntaxUID "1.2.840.10008.1.2.4.91" = .ok (.littleEndian, .ExplicitVR) := by
  constructor
  · exact c7_parse_transfer_syntax.2.2.2.2.1 "1.2.840.10008.15.0.4.8"
      ⟨"1.2.840.10008.15.0.4.8", "dicomTransferCapability", "LDAP OID"⟩ rfl (by decide)
  · exact c7_parse_transfer_syntax.2.2.2.2.2 "1.2.840.10008.1.2.4.91"
      ⟨"1.2.840.10008.1.2.4.91", "JPEG 2000", UIDTypeTransferSyntax⟩ rfl rfl (by decide)

/-- C8 -/
theorem c8_specific_character_set_slots (elem : Element) (names : List GoStr)
    (h : Element.GetStrings elem = .ok names) :
    (names = [] → parseSpecificCharacterSet elem = .ok ⟨none, none, none⟩) ∧
    (∀ n0, names = [n0] → parseSpecificCharacterSet elem =
      .ok ⟨decoderForName n0, decoderForName n0, decoderForName n0⟩) ∧
    (∀ n0 n1, names = [n0, n1] → parseSpecificCharacterSet elem =
      .ok ⟨decoderForName n0, decoderForName n1, decoderForName n1⟩) ∧
    (∀ n0 n1 n2 rest, names = n0 :: n1 :: n2 :: rest → parseSpecificCharacterSet elem =
      .ok ⟨decoderForName n0, decoderForName n1, decoderForName n2⟩) := by
  refine ⟨?_, ?_, ?_, ?_⟩
  · intro h0
    subst h0
    unfold parseSpecificCharacterSet
    rw [h]
    rfl
  · intro n0 h0
    subst h0
    unfold parseSpecificCharacterSet
    rw [h]
    rfl
  · intro n0 n1 h0
    subst h0
    unfold parseSpecificCharacterSet
    rw [h]
    rfl
  · intro n0 n1 n2 rest h0
    subst h0
    unfold parseSpecificCharacterSet
    rw [h]
    rfl

theorem c8_witness :
    parseSpecificCharacterSet (.mk ⟨8, 5⟩ (gs "CS") false [.vStr (gs "ISO_IR 101")]) =
      .ok ⟨some "iso-8859-2", some "iso-8859-2", some "iso-8859-2"⟩ := by
  exact (c8_specific_character_set_slots
    (.mk ⟨8, 5⟩ (gs "CS") false [.vStr (gs "ISO_IR 101")]) [gs "ISO_IR 101"] rfl).2.1
    (gs "ISO_IR 101") rfl

end Dicom

namespace Dicom

/-- One decoder operation keeps an already recorded error. -/
theorem runDecOp_err_sticky (d : Decoder) (op : DecOp) (m : String)
    (h : d.err = some m) : (runDecOp d op).err = some m := by
  cases op with
  | opReadBytes n => exact Decoder.ReadBytes_err_sticky d n m h
  | opReadString n => exact Decoder.ReadBytes_err_sticky d n m h
  | opReadUInt16 => exact Decoder.ReadBytes_err_sticky d 2 m h
  | opReadUInt32 => exact Decoder.ReadBytes_err_sticky d 4 m h
  | opReadInt16 => exact Decoder.ReadBytes_err_sticky d 2 m h
  | opReadInt32 => exact Decoder.ReadBytes_err_sticky d 4 m h
  | opReadFloat32 => exact Decoder.ReadBytes_err_sticky d 4 m h
  | opReadFloat64 => exact Decoder.ReadBytes_err_sticky d 8 m h
  | opSkip n => exact Decoder.ReadBytes_err_sticky d n m h
  | opPushLimit n =>
    show (d.PushLimit n).err = some m
    simp only [Decoder.PushLimit, Decoder.SetError, h]
    split_ifs <;> rfl
  | opPopLimit =>
    show d.PopLimit.err = some m
    unfold Decoder.PopLimit
    obtain ⟨buf, pos, limit, err, bo, impl, ols⟩ := d
    cases ols <;> simpa using h
  | opSetError msg => exact Decoder.SetError_keeps_first d msg m h

/-- A decoder operation sequence keeps an already recorded error. -/
theorem runDecOps_err_sticky (ops : List DecOp) :
    ∀ d m, d.err = some m → (runDecOps ops d).err = some m := by
  induction ops with
  | nil => intro d m h; exact h
  | cons op rest ih =>
    intro d m h
    exact ih (runDecOp d op) m (runDecOp_err_sticky d op m h)

/-- One encoder operation keeps an already recorded error. -/
theorem runEncOp_err_sticky (e : Encoder) (op : EncOp) (m : String)
    (h : e.err = some m) : (runEncOp e op).err = some m := by
  cases op with
  | opSetError msg => exact Encoder.SetError_holds_first e msg m h
  | _ => simpa [runEncOp, Encoder.WriteByte, Encoder.WriteBytes, Encoder.WriteString,
      Encoder.WriteZeros, Encoder.WriteUInt16, Encoder.WriteUInt32, Encoder.WriteInt16,
      Encoder.WriteInt32, Encoder.WriteFloat32, Encoder.WriteFloat64] using h

/-- An encoder operation sequence keeps an already recorded error. -/
theorem runEncOps_err_sticky (ops : List EncOp) :
    ∀ e m, e.err = some m → (runEncOps ops e).err = some m := by
  induction ops with
  | nil => intro e m h; exact h
  | cons op rest ih =>
    intro e m h
    exact ih (runEncOp e op) m (runEncOp_err_sticky e op m h)

/-- C9 -/
theorem c9_first_error_sticky_but_later_reads_still_decode (m : String) :
    (∀ ops d, d.err = some m → (runDecOps ops d).err = some m ∧
      (runDecOps ops d).Error = some m ∧ (runDecOps ops d).Finish = some m) ∧
    (∀ ops e, e.err = some m → (runEncOps ops e).err = some m ∧
      (runEncOps ops e).Error = some m) ∧
    (∀ buf pos limit bo impl ols n, pos + n ≤ limit → pos + n ≤ buf.length →
      ((Decoder.mk buf pos limit (some m) bo impl ols).ReadBytes n).1 =
        ((Decoder.mk buf pos limit none bo impl ols).ReadBytes n).1) := by
  refine ⟨?_, ?_, ?_⟩
  · intro ops d h
    have herr := runDecOps_err_sticky ops d m h
    refine ⟨herr, herr, ?_⟩
    unfold Decoder.Finish
    rw [herr]
  · intro ops e h
    have herr := runEncOps_err_sticky ops e m h
    exact ⟨herr, herr⟩
  · intro buf pos limit bo impl ols n h1 h2
    rw [Decoder.ReadBytes_ok buf pos limit (some m) bo impl ols n h1 h2,
      Decoder.ReadBytes_ok buf pos limit none bo impl ols n h1 h2]

theorem c9_witness :
    (runDecOps [.opReadUInt32, .opSetError "later"]
      ((NewBytesDecoder [1, 0, 0, 0] .littleEndian .ExplicitVR).SetError
        "protocol error")).Finish = some "protocol error" ∧
    (runEncOps [.opWriteUInt16 7, .opSetError "later"]
      ((NewBytesEncoder .littleEndian .ExplicitVR).SetError "protocol error")).Error =
      some "protocol error" ∧
    ((Decoder.mk [1, 0, 0, 0] 0 4 (some "protocol error") .littleEndian .ExplicitVR
      []).ReadBytes 4).1 =
      ((Decoder.mk [1, 0, 0, 0] 0 4 none .littleEndian .ExplicitVR []).ReadBytes 4).1 :=
  ⟨((c9_first_error_sticky_but_later_reads_still_decode "protocol error").1
      [.opReadUInt32, .opSetError "later"]
      ((NewBytesDecoder [1, 0, 0, 0] .littleEndian .ExplicitVR).SetError "protocol error")
      rfl).2.2,
    ((c9_first_error_sticky_but_later_reads_still_decode "protocol error").2.1
      [.opWriteUInt16 7, .opSetError "later"]
      ((NewBytesEncoder .littleEndian .ExplicitVR).SetError "protocol error") rfl).2,
    (c9_first_error_sticky_but_later_reads_still_decode "protocol error").2.2
      [1, 0, 0, 0] 0 4 .littleEndian .ExplicitVR [] 4 (by decide) (by decide)⟩

theorem c9_counterexample :
    ((NewBytesDecoder [1, 0, 0, 0] .littleEndian .ExplicitVR).SetError "protocol error").err =
      some "protocol error" ∧
    (((NewBytesDecoder [1, 0, 0, 0] .littleEndian .ExplicitVR).SetError
      "protocol error").ReadUInt32).1 = 1 ∧
    (((NewBytesDecoder [1, 0, 0, 0] .littleEndian .ExplicitVR).SetError
      "protocol error").ReadUInt32).2.err = some "protocol error" ∧
    (((NewBytesDecoder [1, 0, 0, 0] .littleEndian .ExplicitVR).SetError
      "protocol error").ReadUInt32).1 ≠ 0 :=
  ⟨rfl, rfl, rfl, by decide⟩

end Dicom

namespace Dicom

/-- C1 -/
theorem c1_at_element_breaks_roundtrip :
    (ReadElement 10 (NewBytesDecoder ([0x11, 0, 0x10, 0] ++ gs "AT" ++ [4, 0] ++
        [8, 0, 0x18, 0]) .littleEndian .ExplicitVR) ⟨false⟩).1 =
      some (.mk ⟨0x11, 0x10⟩ (gs "AT") false [.vTag ⟨8, 0x18⟩]) ∧
    (ReadElement 10 (NewBytesDecoder ([0x11, 0, 0x10, 0] ++ gs "AT" ++ [4, 0] ++
        [8, 0, 0x18, 0]) .littleEndian .ExplicitVR) ⟨false⟩).2.err = none ∧
    (WriteElement (NewBytesEncoder .littleEndian .ExplicitVR)
        (.mk ⟨0x11, 0x10⟩ (gs "AT") false [.vTag ⟨8, 0x18⟩])).err =
      some "Non-string value found" ∧
    (WriteElement (NewBytesEncoder .littleEndian .ExplicitVR)
        (.mk ⟨0x11, 0x10⟩ (gs "AT") false [.vTag ⟨8, 0x18⟩])).buf =
      [0x11, 0, 0x10, 0] ++ gs "AT" ++ [0, 0] ∧
    (ReadElement 10 (NewBytesDecoder ([0x11, 0, 0x10, 0] ++ gs "AT" ++ [0, 0])
        .littleEndian .ExplicitVR) ⟨false⟩).1 =
      some (.mk ⟨0x11, 0x10⟩ (gs "AT") false []) ∧
    ([] : List DValue) ≠ [.vTag ⟨8, 0x18⟩] :=
  ⟨rfl, rfl, rfl, rfl, rfl, fun h => List.noConfusion h⟩

end Dicom
